import Mathlib

/-!
Verification of the report-assembly engine of `mne/report.py`.

Python strings are modelled as lists of characters, numpy 2-D slices as
`Mat` (explicit dimensions plus an index function), 3-D volumes as `Arr3`,
and the mutable `Report` object as an explicit state record threaded
through every rendering function.  Python exceptions are modelled by
returning the state as mutated up to the raise point together with an
optional error value, which is what the per-artifact `try/except` in
`parse_folder` observes.
-/

/-- Python strings, modelled as lists of characters. -/
abbrev Str := List Char

/-- Literal helper: the character list of a string literal. -/
def sfx (s : String) : Str := s.toList

/-- Python `str.endswith`. -/
def pyEndsWith (f s : Str) : Bool := s.isSuffixOf f

/-- Python `os.path.join` for two components. -/
def pyJoin (a b : Str) : Str := a ++ '/' :: b

/-- Python `os.path.basename`: the part after the last slash. -/
def pyBasename (f : Str) : Str := (f.reverse.takeWhile (fun c => c ≠ '/')).reverse

/-- A suffix of a suffix of `f` is a suffix of `f`. -/
theorem pyEndsWith_of_suffix {f s t : Str} (h : pyEndsWith f s = true)
    (ht : t <:+ s) : pyEndsWith f t = true := by
  simp only [pyEndsWith, List.isSuffixOf_iff_suffix] at h ⊢
  exact ht.trans h

/-- Of two suffixes of the same list, the shorter is a suffix of the longer. -/
theorem suffix_of_suffix_length_le {f s t : Str} (hs : s <:+ f) (ht : t <:+ f)
    (hl : s.length ≤ t.length) : s <:+ t := by
  have hs' : s.reverse <+: f.reverse := by
    apply List.reverse_suffix.mp
    simpa using hs
  have ht' : t.reverse <+: f.reverse := by
    apply List.reverse_suffix.mp
    simpa using ht
  have hst : s.reverse <+: t.reverse :=
    List.prefix_of_prefix_length_le hs' ht' (by simpa using hl)
  have := List.reverse_suffix.mpr hst
  simpa using this

/-- Two candidate suffixes that are incompatible with each other cannot both be
suffixes of the same string; used to discharge the suffix-cascade case splits. -/
theorem pyEndsWith_eq_false_of_incompat {f : Str} (s t : Str)
    (h : pyEndsWith f s = true)
    (hinc : (t.length ≤ s.length ∧ t.isSuffixOf s = false) ∨
            (s.length ≤ t.length ∧ s.isSuffixOf t = false)) :
    pyEndsWith f t = false := by
  by_contra hc
  have ht : pyEndsWith f t = true := by
    cases h' : pyEndsWith f t with
    | true => rfl
    | false => exact absurd h' hc
  simp only [pyEndsWith, List.isSuffixOf_iff_suffix] at h ht
  rcases hinc with ⟨hl, hf⟩ | ⟨hl, hf⟩
  · have := suffix_of_suffix_length_le ht h hl
    rw [← List.isSuffixOf_iff_suffix] at this
    rw [this] at hf
    exact absurd hf (by simp)
  · have := suffix_of_suffix_length_le h ht hl
    rw [← List.isSuffixOf_iff_suffix] at this
    rw [this] at hf
    exact absurd hf (by simp)

/-! ## 2-D slices and 3-D volumes -/

/-- A 2-D numpy array: explicit dimensions plus an index function. -/
structure Mat where
  rows : Nat
  cols : Nat
  val : Nat → Nat → Int

/-- Model of `np.rot90` (counter-clockwise quarter turn): `rot90(A)[i][j] = A[j][cols-1-i]`. -/
def np_rot90 (m : Mat) : Mat :=
  ⟨m.cols, m.rows, fun i j => m.val j (m.cols - 1 - i)⟩

/-- Model of `np.flipud` (reverse the row order). -/
def np_flipud (m : Mat) : Mat :=
  ⟨m.rows, m.cols, fun i j => m.val (m.rows - 1 - i) j⟩

/-- Model of `np.rot90(A, 2)`: a half turn. -/
def np_rot180 (m : Mat) : Mat := np_rot90 (np_rot90 m)

/-- The coronal presentation transform from `_iterate_coronal_slices`:
`np.flipud(np.rot90(slice))`. -/
def coronalXform (m : Mat) : Mat := np_flipud (np_rot90 m)

/-- Materialise a matrix as a rectangular list of lists (row-major). -/
def Mat.toList (m : Mat) : List (List Int) :=
  (List.range m.rows).map fun i => (List.range m.cols).map fun j => m.val i j

/-- A 3-D numpy array. -/
structure Arr3 where
  nx : Nat
  ny : Nat
  nz : Nat
  val : Nat → Nat → Nat → Int

/-- The sagittal plane `array[ind, :, :]`. -/
def Arr3.sag (a : Arr3) (i : Nat) : Mat := ⟨a.ny, a.nz, fun j k => a.val i j k⟩

/-- The axial plane `array[:, ind, :]`. -/
def Arr3.axl (a : Arr3) (j : Nat) : Mat := ⟨a.nx, a.nz, fun i k => a.val i j k⟩

/-- The coronal plane `array[:, :, ind]` (before the presentation transform). -/
def Arr3.cor (a : Arr3) (k : Nat) : Mat := ⟨a.nx, a.ny, fun i j => a.val i j k⟩

/-- The guard `if limits and ind not in limits: continue` of the slice
iterators: an index is yielded iff `limits` is `None`, or is empty (falsy),
or contains the index. -/
def pyLimitsYield (limits : Option (List Nat)) (ind : Nat) : Bool :=
  match limits with
  | none => true
  | some l => l.isEmpty || l.contains ind

/-- Model of `_iterate_sagittal_slices`: iterate over the first dimension. -/
def _iterate_sagittal_slices (a : Arr3) (limits : Option (List Nat)) :
    List (Nat × Mat) :=
  (List.range a.nx).filterMap fun ind =>
    if pyLimitsYield limits ind then some (ind, a.sag ind) else none

/-- Model of `_iterate_axial_slices`: iterate over the second dimension. -/
def _iterate_axial_slices (a : Arr3) (limits : Option (List Nat)) :
    List (Nat × Mat) :=
  (List.range a.ny).filterMap fun ind =>
    if pyLimitsYield limits ind then some (ind, a.axl ind) else none

/-- Model of `_iterate_coronal_slices`: iterate over the third dimension, applying
`np.flipud(np.rot90(...))` to each plane. -/
def _iterate_coronal_slices (a : Arr3) (limits : Option (List Nat)) :
    List (Nat × Mat) :=
  (List.range a.nz).filterMap fun ind =>
    if pyLimitsYield limits ind then some (ind, coronalXform (a.cor ind)) else none

/-! ## Errors and the slider builder -/

/-- Python exceptions that the modelled code can raise. -/
inductive PyErr where
  | indexError
  | ioError (fname : Str)
  | readerError
  | configError
deriving Repr, DecidableEq

/-- The numeric and naming payload of the slider template substitution
performed by `_build_html_slider`. -/
structure SliderHtml where
  slider_id : Str
  klass : Str
  minvalue : Int
  maxvalue : Int
  startvalue : Int
deriving Repr, DecidableEq

/-- Model of `_build_html_slider`: `startvalue = (slices_range[0] + slices_range[-1]) / 2 + 1`
with Python 2 floor division; indexing an empty list raises `IndexError`. -/
def _build_html_slider (slices_range : List Int) (slides_klass slider_id : Str) :
    Except PyErr SliderHtml :=
  match slices_range with
  | [] => .error .indexError
  | x :: rest =>
    let lastv := rest.getLastD x
    .ok ⟨slider_id, slides_klass, x, lastv, Int.fdiv (x + lastv) 2 + 1⟩

/-! ## Generic lemmas about the slice iterators -/

/-- The indices of a guarded `filterMap` are the filtered indices. -/
theorem filterMap_guard_fst {α : Type} (L : List Nat) (c : Nat → Bool) (f : Nat → α) :
    ((L.filterMap fun i => if c i then some (i, f i) else none).map Prod.fst)
      = L.filter c := by
  induction L with
  | nil => rfl
  | cons a t ih =>
    by_cases h : c a = true
    · simp [h, ih]
    · simp only [Bool.not_eq_true] at h
      simp [h, ih]

/-- Every pair produced by a guarded `filterMap` pairs an index with its plane. -/
theorem mem_filterMap_guard {α : Type} {L : List Nat} {c : Nat → Bool} {f : Nat → α}
    {p : Nat × α} (hp : p ∈ L.filterMap fun i => if c i then some (i, f i) else none) :
    p.2 = f p.1 := by
  rcases List.mem_filterMap.mp hp with ⟨i, _, h⟩
  split at h
  · cases h; rfl
  · cases h

/-- An unguarded `filterMap` of pairs is a `map`. -/
theorem filterMap_some_pair {α : Type} (L : List Nat) (f : Nat → α) :
    (L.filterMap fun i => some (i, f i)) = L.map fun i => (i, f i) := by
  induction L with
  | nil => rfl
  | cons a t ih => simp [ih]

/-! ## Claim C10: the slice iterators -/

/-- Claim C10, counterexample: with a *supplied but empty* limit collection the
iterator yields every index (Python truthiness of an empty list), not the empty
intersection the claim asserts. -/
theorem c10_counterexample :
    ((_iterate_sagittal_slices ⟨2, 2, 2, fun _ _ _ => 0⟩ (some [])).map Prod.fst)
        = [0, 1] ∧
    ([0, 1] : List Nat) ≠ [] := by
  constructor
  · rfl
  · decide

/-- Claim C10 (amended): for a *non-empty* limit collection each iterator yields
exactly the in-range indices belonging to the collection, in ascending order,
each paired with its 2-D plane (the coronal one transformed); with no limit
supplied every index of the axis extent is yielded.  With an empty limit
collection the Python truthiness of `limits` makes the guard ineffective, so
every index is yielded as well (see the counterexample). -/
theorem c10_amended (a : Arr3) (l : List Nat) (hne : l ≠ []) :
    ((_iterate_sagittal_slices a (some l)).map Prod.fst
        = (List.range a.nx).filter (fun i => l.contains i)
      ∧ (_iterate_axial_slices a (some l)).map Prod.fst
        = (List.range a.ny).filter (fun i => l.contains i)
      ∧ (_iterate_coronal_slices a (some l)).map Prod.fst
        = (List.range a.nz).filter (fun i => l.contains i))
    ∧ (∀ p ∈ _iterate_sagittal_slices a (some l), p.2 = a.sag p.1)
    ∧ (∀ p ∈ _iterate_axial_slices a (some l), p.2 = a.axl p.1)
    ∧ (∀ p ∈ _iterate_coronal_slices a (some l), p.2 = coronalXform (a.cor p.1))
    ∧ ((_iterate_sagittal_slices a (some l)).map Prod.fst).Pairwise (· < ·)
    ∧ ((_iterate_axial_slices a (some l)).map Prod.fst).Pairwise (· < ·)
    ∧ ((_iterate_coronal_slices a (some l)).map Prod.fst).Pairwise (· < ·)
    ∧ (_iterate_sagittal_slices a none = (List.range a.nx).map fun i => (i, a.sag i))
    ∧ (_iterate_axial_slices a none = (List.range a.ny).map fun i => (i, a.axl i))
    ∧ (_iterate_coronal_slices a none
        = (List.range a.nz).map fun i => (i, coronalXform (a.cor i))) := by
  have hyield : ∀ i, pyLimitsYield (some l) i = l.contains i := by
    intro i
    cases l with
    | nil => cases hne rfl
    | cons b t => simp [pyLimitsYield]
  have hsag : (_iterate_sagittal_slices a (some l)).map Prod.fst
      = (List.range a.nx).filter (fun i => l.contains i) := by
    rw [_iterate_sagittal_slices]
    simp only [hyield]
    exact filterMap_guard_fst _ _ _
  have haxl : (_iterate_axial_slices a (some l)).map Prod.fst
      = (List.range a.ny).filter (fun i => l.contains i) := by
    rw [_iterate_axial_slices]
    simp only [hyield]
    exact filterMap_guard_fst _ _ _
  have hcor : (_iterate_coronal_slices a (some l)).map Prod.fst
      = (List.range a.nz).filter (fun i => l.contains i) := by
    rw [_iterate_coronal_slices]
    simp only [hyield]
    exact filterMap_guard_fst _ _ _
  refine ⟨⟨hsag, haxl, hcor⟩, ?_, ?_, ?_, ?_, ?_, ?_, ?_, ?_, ?_⟩
  · intro p hp
    exact mem_filterMap_guard hp
  · intro p hp
    exact mem_filterMap_guard hp
  · intro p hp
    exact mem_filterMap_guard hp
  · rw [hsag]
    exact (List.pairwise_lt_range a.nx).filter _
  · rw [haxl]
    exact (List.pairwise_lt_range a.ny).filter _
  · rw [hcor]
    exact (List.pairwise_lt_range a.nz).filter _
  · rw [_iterate_sagittal_slices]
    simp only [pyLimitsYield, if_true]
    exact filterMap_some_pair _ _
  · rw [_iterate_axial_slices]
    simp only [pyLimitsYield, if_true]
    exact filterMap_some_pair _ _
  · rw [_iterate_coronal_slices]
    simp only [pyLimitsYield, if_true]
    exact filterMap_some_pair _ _

/-- Claim C10 witness: the amended theorem applied at a concrete volume and
a concrete non-empty limit collection. -/
theorem c10_amended_witness :
    (_iterate_sagittal_slices ⟨3, 3, 3, fun _ _ _ => 0⟩ (some [0, 2])).map Prod.fst
      = (List.range 3).filter (fun i => [0, 2].contains i) :=
  (c10_amended ⟨3, 3, 3, fun _ _ _ => 0⟩ [0, 2] (by decide)).1.1

/-! ## Claim C2: the coronal presentation transform -/

/-- Claim C2, counterexample: on the square array `[[0,1],[2,3]]` applying the
coronal transform (`rot90` then `flipud`) twice returns the original array,
which differs from its 180-degree rotation `[[3,2],[1,0]]`. -/
theorem c2_counterexample :
    (coronalXform (coronalXform ⟨2, 2, fun i j => 2 * (i : Int) + (j : Int)⟩)).toList
        = [[0, 1], [2, 3]] ∧
    (np_rot180 ⟨2, 2, fun i j => 2 * (i : Int) + (j : Int)⟩).toList
        = [[3, 2], [1, 0]] ∧
    ([[0, 1], [2, 3]] : List (List Int)) ≠ [[3, 2], [1, 0]] := by
  refine ⟨by decide, by decide, by decide⟩

/-- Claim C2 (amended): the coronal transform (`rot90` then `flipud`) equals
matrix transposition, so applying it twice to any square slice returns the
*original* array — not its 180-degree rotation. -/
theorem c2_amended (n : Nat) (f : Nat → Nat → Int) :
    (coronalXform (coronalXform ⟨n, n, f⟩)).toList = (Mat.mk n n f).toList := by
  simp only [coronalXform, np_rot90, np_flipud, Mat.toList]
  apply List.map_congr_left
  intro i hi
  apply List.map_congr_left
  intro j hj
  have hi' : i < n := List.mem_range.mp hi
  have hj' : j < n := List.mem_range.mp hj
  show f (n - 1 - (n - 1 - i)) (n - 1 - (n - 1 - j)) = f i j
  rw [show n - 1 - (n - 1 - i) = i from by omega,
      show n - 1 - (n - 1 - j) = j from by omega]

/-! ## Claim C3: the slider default value -/

/-- The floor-division bounds for division by two. -/
theorem fdiv_two_bounds (x : Int) :
    2 * Int.fdiv x 2 ≤ x ∧ x < 2 * Int.fdiv x 2 + 2 := by
  rw [Int.fdiv_eq_ediv x (by norm_num)]
  omega

/-- Python 2 integer division by two is the rational floor. -/
theorem fdiv_two_eq_floor (x : Int) : Int.fdiv x 2 = ⌊(x : ℚ) / 2⌋ := by
  obtain ⟨h1, h2⟩ := fdiv_two_bounds x
  rw [eq_comm, Int.floor_eq_iff]
  constructor
  · rw [le_div_iff (by norm_num : (0 : ℚ) < 2)]
    exact_mod_cast (by omega : Int.fdiv x 2 * 2 ≤ x)
  · rw [div_lt_iff (by norm_num : (0 : ℚ) < 2)]
    exact_mod_cast (by omega : x < (Int.fdiv x 2 + 1) * 2)

/-- The default element of a non-empty list is a member of it. -/
theorem getLastD_mem (x : Int) (rest : List Int) : rest.getLastD x ∈ x :: rest := by
  induction rest generalizing x with
  | nil => simp
  | cons b t ih =>
    have h := ih b
    rw [List.getLastD_cons]
    rcases List.mem_cons.mp h with h1 | h1
    · rw [h1]
      exact List.mem_cons_of_mem x (List.mem_cons_self b t)
    · exact List.mem_cons_of_mem x (List.mem_cons_of_mem b h1)

/-- In a sorted list the last element (with default head) bounds every member. -/
theorem sorted_le_getLastD (x : Int) (rest : List Int)
    (hs : (x :: rest).Sorted (· ≤ ·)) : ∀ y ∈ x :: rest, y ≤ rest.getLastD x := by
  induction rest generalizing x with
  | nil =>
    intro y hy
    simp only [List.mem_singleton] at hy
    simp [hy]
  | cons b t ih =>
    intro y hy
    have h1 := (List.sorted_cons.mp hs).1
    have h2 := (List.sorted_cons.mp hs).2
    simp only [List.getLastD_cons]
    rcases List.mem_cons.mp hy with rfl | hy
    · have hxb : y ≤ b := h1 b (by simp)
      have hbl : b ≤ t.getLastD b := ih b h2 b (by simp)
      exact le_trans hxb hbl
    · exact ih b h2 y hy

/-- In a sorted list the head bounds every member from below. -/
theorem sorted_head_le (x : Int) (rest : List Int)
    (hs : (x :: rest).Sorted (· ≤ ·)) : ∀ y ∈ x :: rest, x ≤ y := by
  intro y hy
  rcases List.mem_cons.mp hy with rfl | hy
  · exact le_refl y
  · exact (List.sorted_cons.mp hs).1 y hy

/-- Claim C3, counterexample: on the singleton ascending sequence `[0]` the
computed start value is `(0 + 0) / 2 + 1 = 1`, which lies outside
`[min, max] = [0, 0]`. -/
theorem c3_counterexample :
    _build_html_slider [0] [] [] = .ok ⟨[], [], 0, 0, 1⟩ ∧
    ¬ ((1 : Int) ≤ 0) := by
  refine ⟨rfl, by decide⟩

/-- Claim C3 (amended): for every non-empty ascending sequence the slider
builder succeeds; its `minvalue`/`maxvalue` are the minimum and maximum of the
sequence, the start value equals `floor((min + max) / 2) + 1`, and when
`min < max` (at least two distinct endpoints) the start value lies within
`[min, max]`.  For a sequence with `min = max` (e.g. a singleton) the start
value is `max + 1`, outside the range — see the counterexample. -/
theorem c3_amended (x : Int) (rest : List Int)
    (hs : (x :: rest).Sorted (· ≤ ·)) (ks sid : Str) :
    ∃ s : SliderHtml, _build_html_slider (x :: rest) ks sid = .ok s ∧
      s.minvalue ∈ (x :: rest) ∧ s.maxvalue ∈ (x :: rest) ∧
      (∀ y ∈ x :: rest, s.minvalue ≤ y ∧ y ≤ s.maxvalue) ∧
      s.startvalue = ⌊((s.minvalue + s.maxvalue : Int) : ℚ) / 2⌋ + 1 ∧
      (s.minvalue < s.maxvalue →
        s.minvalue ≤ s.startvalue ∧ s.startvalue ≤ s.maxvalue) := by
  refine ⟨⟨sid, ks, x, rest.getLastD x, Int.fdiv (x + rest.getLastD x) 2 + 1⟩,
    rfl, by simp, getLastD_mem x rest, ?_, ?_, ?_⟩
  · intro y hy
    exact ⟨sorted_head_le x rest hs y hy, sorted_le_getLastD x rest hs y hy⟩
  · show Int.fdiv (x + rest.getLastD x) 2 + 1
        = ⌊((x + rest.getLastD x : Int) : ℚ) / 2⌋ + 1
    rw [fdiv_two_eq_floor]
  · intro hlt
    have hb := fdiv_two_bounds (x + rest.getLastD x)
    have hlt' : x < rest.getLastD x := hlt
    constructor
    · show x ≤ Int.fdiv (x + rest.getLastD x) 2 + 1
      generalize hm : rest.getLastD x = m at hlt' hb ⊢
      generalize hq : Int.fdiv (x + m) 2 = q at hb ⊢
      omega
    · show Int.fdiv (x + rest.getLastD x) 2 + 1 ≤ rest.getLastD x
      generalize hm : rest.getLastD x = m at hlt' hb ⊢
      generalize hq : Int.fdiv (x + m) 2 = q at hb ⊢
      omega

/-- Claim C3 witness: the amended theorem applied to the concrete ascending
sequence `[0, 2, 4]`. -/
theorem c3_amended_witness :
    ∃ s : SliderHtml, _build_html_slider [0, 2, 4] [] [] = .ok s ∧
      s.minvalue ∈ [0, 2, 4] ∧ s.maxvalue ∈ [0, 2, 4] ∧
      (∀ y ∈ [0, 2, 4], s.minvalue ≤ y ∧ y ≤ s.maxvalue) ∧
      s.startvalue = ⌊((s.minvalue + s.maxvalue : Int) : ℚ) / 2⌋ + 1 ∧
      (s.minvalue < s.maxvalue →
        s.minvalue ≤ s.startvalue ∧ s.startvalue ≤ s.maxvalue) :=
  c3_amended 0 [2, 4] (by decide) [] []

/-! ## The report pipeline: fragments, state, environment -/

/-- One row of the rendered table of contents (`_render_toc`). -/
inductive TocEntry where
  | linked (klass : Str) (id : Nat) (color : Str) (label : Str)
  | evokedParent (label : Str)
  | evokedCond (id : Nat) (color : Str) (label : Str)
  | bemRow (id : Nat)
  | customRow (id : Nat)
deriving Repr, DecidableEq

/-- One slice-browser column produced by `_render_one_axe` /
`_render_one_bem_axe`: the slice indices, the slider, and whether the slices
are contour overlays (BEM) or plain volume slices. -/
structure AxisHtml where
  name : Str
  sliceIndices : List Nat
  slider : SliderHtml
  contours : Bool
deriving Repr, DecidableEq

/-- One entry of the document's `self.html` list. -/
inductive Frag where
  | headerF (title : Str)
  | tocF (entries : List TocEntry)
  | reprF (div_klass : Str) (id : Nat) (caption : Str)
  | imageF (div_klass : Str) (id : Nat) (caption : Str) (interactive : Bool)
  | sliceSection (id : Nat) (name : Str) (axes : List AxisHtml)
  | footerF
deriving Repr, DecidableEq

/-- The mutable state of a `Report` object. -/
structure Report where
  initial_id : Nat
  html : List Frag
  fnames : List Str
  warningsLog : List Str
deriving Repr, DecidableEq

/-- Model of `Report._get_id`: increment the counter and return it. -/
def Report._get_id (r : Report) : Nat × Report :=
  (r.initial_id + 1, { r with initial_id := r.initial_id + 1 })

/-- The external world of one report run: the files found by the directory
walk, the configuration, and the behaviour of the external readers and
plotting collaborators (deterministic oracles). -/
structure Env where
  scanFiles : List Str
  subjects_dir : Option Str
  subject : Option Str
  title : Str
  readerOk : Str → Bool
  evokedComments : Str → List Str
  transIsScene : Str → Bool
  isDir : Str → Bool
  mriPresent : Bool
  bemDirPresent : Bool
  surfPresent : Str → Bool
  mriData : Arr3

/-- Model of `fnmatch` against the fixed pattern `*.fif`. -/
def fnmatchFif (f : Str) : Bool := pyEndsWith f (sfx ".fif")

/-- Model of `_recursive_search(data_path, '*.fif')`: the files of the walk matching
the pattern. -/
def _recursive_search (files : List Str) : List Str := files.filter fnmatchFif

/-- Model of `op.join(subjects_dir, subject, 'mri', 'T1.mgz')`. -/
def mriPath (env : Env) : Str :=
  pyJoin (pyJoin (pyJoin (env.subjects_dir.getD []) (env.subject.getD []))
    (sfx "mri")) (sfx "T1.mgz")

/-- The file list processed by `parse_folder`: the `*.fif` matches plus the
`T1.mgz` glob result when a subject is configured and the file exists. -/
def scanList (env : Env) : List Str :=
  _recursive_search env.scanFiles ++
    (if env.subjects_dir.isSome && env.subject.isSome && env.mriPresent
     then [mriPath env] else [])

/-- A freshly constructed `Report` (after `_init_render` pushed the header). -/
def mkReport (env : Env) : Report := ⟨0, [.headerF env.title], [], []⟩

/-- Decimal rendering of a fragment id for slider element names. -/
def natStr (n : Nat) : Str := (Nat.repr n).toList

/-- Model of `range(0, n, 2)`. -/
def rangeStep2 (n : Nat) : List Nat := (List.range n).filter fun i => i % 2 == 0

/-! ## Section renderers

Each renderer returns the state as mutated up to the Python raise point,
together with an optional exception. -/

/-- Model of `Report._render_one_axe`: collect the yielded indices, then build the
slider (raising `IndexError` on an empty slice range). -/
def _render_one_axe (slices : List (Nat × Mat)) (name : Str) (global_id : Nat) :
    Except PyErr AxisHtml :=
  let slides_klass := name ++ '-' :: natStr global_id
  let slider_id := sfx "select-" ++ name ++ '-' :: natStr global_id
  match _build_html_slider (slices.map fun p => (p.1 : Int)) slides_klass slider_id with
  | .error e => .error e
  | .ok s => .ok ⟨name, slices.map Prod.fst, s, false⟩

/-- Model of `Report._render_array`: axial, sagittal then coronal columns. -/
def _render_array (a : Arr3) (global_id : Nat)
    (sagLim axlLim corLim : Option (List Nat)) : Except PyErr (List AxisHtml) := do
  let axAxial ← _render_one_axe (_iterate_axial_slices a axlLim) (sfx "axial") global_id
  let axSag ← _render_one_axe (_iterate_sagittal_slices a sagLim) (sfx "sagittal") global_id
  let axCor ← _render_one_axe (_iterate_coronal_slices a corLim) (sfx "coronal") global_id
  .ok [axAxial, axSag, axCor]

/-- Model of `Report._render_image`: load the volume (raising if the file is missing),
allocate an id, and append a plain-volume slice section with every-other-index
limits on all three axes. -/
def _render_image (env : Env) (r : Report) (image : Str) : Report × Option PyErr :=
  if env.mriPresent then
    let (gid, r1) := r._get_id
    let a := env.mriData
    match _render_array a gid (some (rangeStep2 a.nx)) (some (rangeStep2 a.ny))
        (some (rangeStep2 a.nz)) with
    | .ok axes =>
      ({ r1 with html := r1.html ++ [.sliceSection gid (pyBasename image) axes] }, none)
    | .error e => (r1, some e)
  else (r, some (.ioError image))

/-- Model of `Report._render_raw`: the id is allocated *before* the reader runs, so a
reader failure leaks the id. -/
def _render_raw (env : Env) (r : Report) (raw_fname : Str) : Report × Option PyErr :=
  let (gid, r1) := r._get_id
  if env.readerOk raw_fname then
    ({ r1 with html := r1.html ++
        [.reprF (sfx "raw") gid (sfx "Raw : " ++ raw_fname)] }, none)
  else (r1, some .readerError)

/-- Model of `Report._render_forward`: reader first, then id; appends its own file name
to the TOC backing list. -/
def _render_forward (env : Env) (r : Report) (fwd_fname : Str) : Report × Option PyErr :=
  if env.readerOk fwd_fname then
    let (gid, r1) := r._get_id
    let r2 := { r1 with html := r1.html ++
      [Frag.reprF (sfx "forward") gid (sfx "Forward: " ++ fwd_fname)] }
    ({ r2 with fnames := r2.fnames ++ [fwd_fname] }, none)
  else (r, some .readerError)

/-- One condition of an averaged-response file: allocate an id and append the
condition's image fragment. -/
def evokedCondStep (evoked_fname : Str) (r : Report) (c : Str) : Report :=
  let (gid, r1) := r._get_id
  { r1 with html := r1.html ++
      [.imageF (sfx "evoked") gid
        (sfx "Evoked : " ++ evoked_fname ++ sfx " (" ++ c ++ sfx ")") false] }

/-- Model of `Report._render_evoked`: reader first, then one fragment per condition. -/
def _render_evoked (env : Env) (r : Report) (evoked_fname : Str) : Report × Option PyErr :=
  if env.readerOk evoked_fname then
    ((env.evokedComments evoked_fname).foldl (evokedCondStep evoked_fname) r, none)
  else (r, some .readerError)

/-- Model of `Report._render_eve`: the id is allocated before the reader runs. -/
def _render_eve (env : Env) (r : Report) (eve_fname : Str) (interactive : Bool) :
    Report × Option PyErr :=
  let (gid, r1) := r._get_id
  if env.readerOk eve_fname then
    ({ r1 with html := r1.html ++
        [.imageF (sfx "events") gid (sfx "Events : " ++ eve_fname) interactive] }, none)
  else (r1, some .readerError)

/-- Model of `Report._render_epochs`: the id is allocated before the reader runs. -/
def _render_epochs (env : Env) (r : Report) (epo_fname : Str) : Report × Option PyErr :=
  let (gid, r1) := r._get_id
  if env.readerOk epo_fname then
    ({ r1 with html := r1.html ++
        [.imageF (sfx "epochs") gid (sfx "Epochs : " ++ epo_fname) false] }, none)
  else (r1, some .readerError)

/-- Model of `Report._render_cov`: the id is allocated before the reader runs. -/
def _render_cov (env : Env) (r : Report) (cov_fname : Str) : Report × Option PyErr :=
  let (gid, r1) := r._get_id
  if env.readerOk cov_fname then
    ({ r1 with html := r1.html ++
        [.imageF (sfx "covariance") gid (sfx "Covariance : " ++ cov_fname) false] }, none)
  else (r1, some .readerError)

/-- Model of `Report._render_trans`: plot first; only a 3-D scene result allocates an id
and appends a fragment — otherwise the renderer silently produces nothing. -/
def _render_trans (env : Env) (r : Report) (trans_fname : Str) : Report × Option PyErr :=
  if env.readerOk trans_fname then
    if env.transIsScene trans_fname then
      let (gid, r1) := r._get_id
      ({ r1 with html := r1.html ++
          [.imageF (sfx "trans") gid (sfx "Trans : " ++ trans_fname) false] }, none)
    else (r, none)
  else (r, some .readerError)

/-- Model of `Report._render_one_bem_axe`: every other slice of the axis extent, with
contour overlays. -/
def _render_one_bem_axe (n_slices : Nat) (name : Str) (global_id : Nat) :
    Except PyErr AxisHtml :=
  let slices_range := rangeStep2 n_slices
  let slides_klass := name ++ '-' :: natStr global_id
  let slider_id := sfx "select-" ++ name ++ '-' :: natStr global_id
  match _build_html_slider (slices_range.map fun i => (i : Int)) slides_klass slider_id with
  | .error e => .error e
  | .ok s => .ok ⟨name, slices_range, s, true⟩

/-- The three BEM surface glob patterns, in search order. -/
def bemSurfNames : List Str :=
  [sfx "*inner_skull", sfx "*outer_skull", sfx "*outer_skin"]

/-- Model of `Report._render_bem`: missing subjects dir raises; a missing MRI file only
warns at first; a missing bem directory or first missing surface falls back to
`_render_image` on the MRI path; otherwise the volume is loaded (raising if the
MRI file is in fact absent) and a contour slice section is appended. -/
def _render_bem (env : Env) (r : Report) : Report × Option PyErr :=
  match env.subjects_dir with
  | none => (r, some .configError)
  | some _ =>
    let r1 := if env.mriPresent then r
      else { r with warningsLog := r.warningsLog ++ [sfx "MRI file does not exist"] }
    if env.bemDirPresent = false then
      let r2 := { r1 with warningsLog :=
        r1.warningsLog ++ [sfx "Subject bem directory does not exist"] }
      _render_image env r2 (mriPath env)
    else
      match (bemSurfNames.filter fun s => !env.surfPresent s).head? with
      | some missing =>
        let r2 := { r1 with warningsLog :=
          r1.warningsLog ++ [sfx "No surface found for " ++ missing] }
        _render_image env r2 (mriPath env)
      | none =>
        if env.mriPresent then
          let (gid, r2) := r1._get_id
          let a := env.mriData
          match _render_one_bem_axe a.ny (sfx "axial") gid with
          | .error e => (r2, some e)
          | .ok axAxial =>
            match _render_one_bem_axe a.nx (sfx "sagittal") gid with
            | .error e => (r2, some e)
            | .ok axSag =>
              match _render_one_bem_axe a.nz (sfx "coronal") gid with
              | .error e => (r2, some e)
              | .ok axCor =>
                ({ r2 with html := r2.html ++
                    [.sliceSection gid (sfx "BEM") [axAxial, axSag, axCor]] }, none)
        else (r1, some (.ioError (mriPath env)))

/-! ## The `parse_folder` loop and the TOC/save pass -/

/-- The body of the `parse_folder` loop before the `except` clause: the suffix
cascade of the source, with the post-render `fnames` appends. -/
def renderExcept (env : Env) (interactive : Bool) (r : Report) (fname : Str) :
    Report × Option PyErr :=
  if pyEndsWith fname (sfx ".mgz") then
    match _render_bem env r with
    | (r1, none) => ({ r1 with fnames := r1.fnames ++ [sfx "bem"] }, none)
    | (r1, some e) => (r1, some e)
  else if pyEndsWith fname (sfx "raw.fif") || pyEndsWith fname (sfx "sss.fif") then
    match _render_raw env r fname with
    | (r1, none) => ({ r1 with fnames := r1.fnames ++ [fname] }, none)
    | (r1, some e) => (r1, some e)
  else if pyEndsWith fname (sfx "-fwd.fif") || pyEndsWith fname (sfx "-fwd.fif.gz") then
    _render_forward env r fname
  else if pyEndsWith fname (sfx "-ave.fif") then
    match _render_evoked env r fname with
    | (r1, none) => ({ r1 with fnames := r1.fnames ++ [fname] }, none)
    | (r1, some e) => (r1, some e)
  else if pyEndsWith fname (sfx "-eve.fif") then
    match _render_eve env r fname interactive with
    | (r1, none) => ({ r1 with fnames := r1.fnames ++ [fname] }, none)
    | (r1, some e) => (r1, some e)
  else if pyEndsWith fname (sfx "-epo.fif") then
    match _render_epochs env r fname with
    | (r1, none) => ({ r1 with fnames := r1.fnames ++ [fname] }, none)
    | (r1, some e) => (r1, some e)
  else if pyEndsWith fname (sfx "-cov.fif") then
    match _render_cov env r fname with
    | (r1, none) => ({ r1 with fnames := r1.fnames ++ [fname] }, none)
    | (r1, some e) => (r1, some e)
  else if pyEndsWith fname (sfx "-trans.fif") then
    match _render_trans env r fname with
    | (r1, none) => ({ r1 with fnames := r1.fnames ++ [fname] }, none)
    | (r1, some e) => (r1, some e)
  else if env.isDir fname then (r, none)
  else (r, none)

/-- One iteration of the `parse_folder` loop: the `except Exception` clause
logs and discards the exception, keeping the mutated state. -/
def renderStep (env : Env) (interactive : Bool) (r : Report) (fname : Str) : Report :=
  (renderExcept env interactive r fname).1

/-- Model of `Report.parse_folder` over the scan list. -/
def Report.parse_folder (env : Env) (interactive : Bool) (r : Report) : Report :=
  (scanList env).foldl (renderStep env interactive) r

/-- The `_render_toc` bad-naming suffix tuple. -/
def badPatternSuffixes : List Str :=
  [sfx "-eve.fif", sfx "-ave.fif", sfx "-cov.fif", sfx "-sol.fif", sfx "-fwd.fif",
   sfx "-inv.fif", sfx "-src.fif", sfx "-trans.fif", sfx "raw.fif", sfx "-epo.fif",
   sfx "T1.mgz"]

/-- The TOC row colour: `'red'` exactly when the name matches none of the
conventional suffixes. -/
def tocColor (fname : Str) : Str :=
  if !(badPatternSuffixes.any fun s => pyEndsWith fname s) then sfx "red" else []

/-- The TOC class-name cascade of `_render_toc`. -/
def tocClassName (fname : Str) : Str :=
  if pyEndsWith fname (sfx "-eve.fif") then sfx "events"
  else if pyEndsWith fname (sfx "-ave.fif") then sfx "evoked"
  else if pyEndsWith fname (sfx "-cov.fif") then sfx "covariance"
  else if pyEndsWith fname (sfx "raw.fif") || pyEndsWith fname (sfx "sss.fif") then sfx "raw"
  else if pyEndsWith fname (sfx "-trans.fif") then sfx "trans"
  else if pyEndsWith fname (sfx "-fwd.fif") then sfx "forward"
  else if pyEndsWith fname (sfx "-epo.fif") then sfx "epochs"
  else if pyEndsWith fname (sfx ".nii") || pyEndsWith fname (sfx ".nii.gz")
       || pyEndsWith fname (sfx ".mgh") || pyEndsWith fname (sfx ".mgz") then
    sfx "slices-images"
  else []

/-- The suffixes that produce a plain linked TOC row (first branch of the TOC
emission cascade). -/
def tocLinkedSuffixes : List Str :=
  [sfx ".nii", sfx ".nii.gz", sfx ".mgh", sfx ".mgz", sfx "raw.fif", sfx "sss.fif",
   sfx "-eve.fif", sfx "-cov.fif", sfx "-trans.fif", sfx "-fwd.fif", sfx "-epo.fif"]

/-- The TOC row emission loop of `_render_toc`, with its own sequential id
counter starting at 1. -/
def tocEntriesAux (env : Env) : List Str → Nat → List TocEntry
  | [], _ => []
  | fname :: rest, gid =>
    if tocLinkedSuffixes.any fun s => pyEndsWith fname s then
      .linked (tocClassName fname) gid (tocColor fname) (pyBasename fname)
        :: tocEntriesAux env rest (gid + 1)
    else if pyEndsWith fname (sfx "-ave.fif") then
      let conds := env.evokedComments fname
      (.evokedParent (pyBasename fname)
          :: (List.range conds.length).map fun i =>
            .evokedCond (gid + i) (tocColor fname) (conds.getD i []))
        ++ tocEntriesAux env rest (gid + conds.length)
    else if fname = sfx "bem" then
      .bemRow gid :: tocEntriesAux env rest (gid + 1)
    else
      .customRow gid :: tocEntriesAux env rest (gid + 1)

/-- Python `list.insert(1, x)`. -/
def pyInsert1 (l : List Frag) (x : Frag) : List Frag :=
  match l with
  | [] => [x]
  | h :: t => h :: x :: t

/-- Model of `Report._render_toc`: build the TOC from the backing file-name list and
splice it in just after the header. -/
def Report._render_toc (env : Env) (r : Report) : Report :=
  { r with html := pyInsert1 r.html (.tocF (tocEntriesAux env r.fnames 1)) }

/-- Model of `Report.save`: render the TOC, then append the footer. -/
def Report.save (env : Env) (r : Report) : Report :=
  let r1 := r._render_toc env
  { r1 with html := r1.html ++ [.footerF] }

/-! ## Claim C9: the identifier allocator -/

/-- Runs `n` consecutive `_get_id` calls starting from state `r`. -/
def allocIds (r : Report) : Nat → List Nat
  | 0 => []
  | n + 1 =>
    let (i, r1) := r._get_id
    i :: allocIds r1 n

/-- The allocator returns consecutive values from any starting state. -/
theorem allocIds_eq (r : Report) (n : Nat) :
    allocIds r n = List.range' (r.initial_id + 1) n := by
  induction n generalizing r with
  | zero => rfl
  | succ m ih =>
    rw [allocIds, List.range'_succ]
    simp only [Report._get_id]
    rw [ih]

/-- Claim C9: starting from a freshly constructed `Report`, `N` consecutive
`_get_id` calls return exactly `1, 2, ..., N`, in order, with no gaps and no
repeats (the result is precisely `range' 1 N`, which is duplicate-free). -/
theorem c9_allocator (env : Env) (n : Nat) :
    allocIds (mkReport env) n = List.range' 1 n ∧
    (allocIds (mkReport env) n).Nodup := by
  have h := allocIds_eq (mkReport env) n
  constructor
  · exact h
  · rw [h]
    exact List.nodup_range' ..

/-! ## Body-fragment ids and TOC anchor ids -/

/-- The id of a body fragment, if it carries one. -/
def fragId : Frag → Option Nat
  | .reprF _ id _ => some id
  | .imageF _ id _ _ => some id
  | .sliceSection id _ _ => some id
  | _ => none

/-- The allocated fragment ids of a document body, in order. -/
def bodyIds (l : List Frag) : List Nat := l.filterMap fragId

/-- The anchor id of a TOC row, if the row links anywhere. -/
def anchorId : TocEntry → Option Nat
  | .linked _ id _ _ => some id
  | .evokedCond id _ _ => some id
  | .bemRow id => some id
  | .customRow id => some id
  | .evokedParent _ => none

/-- The anchor ids of a TOC, in row order. -/
def anchorIds (l : List TocEntry) : List Nat := l.filterMap anchorId

/-- A trivial 2x2x2 volume used by concrete scenarios. -/
def trivArr : Arr3 := ⟨2, 2, 2, fun _ _ _ => 0⟩

/-- An environment with no scanned files and every collaborator succeeding;
used wherever a scenario only exercises the TOC helpers. -/
def trivEnv : Env :=
  { scanFiles := []
    subjects_dir := none
    subject := none
    title := sfx "t"
    readerOk := fun _ => true
    evokedComments := fun _ => []
    transIsScene := fun _ => true
    isDir := fun _ => false
    mriPresent := false
    bemDirPresent := false
    surfPresent := fun _ => false
    mriData := trivArr }

/-! ## Claim C1 (counterexample part) -/

/-- A scan with one coordinate-transform file whose plot returns no 3-D scene,
followed by one raw recording; every reader succeeds. -/
def envC1 : Env :=
  { scanFiles := [sfx "a-trans.fif", sfx "b_raw.fif"]
    subjects_dir := none
    subject := none
    title := sfx "t"
    readerOk := fun _ => true
    evokedComments := fun _ => []
    transIsScene := fun _ => false
    isDir := fun _ => false
    mriPresent := false
    bemDirPresent := false
    surfPresent := fun _ => false
    mriData := trivArr }

/-- Claim C1, counterexample: both passes visit the artifacts in the identical
(backing-list) order, yet the TOC allocates anchor ids `[1, 2]` while body
rendering allocated only id `[1]` — the trans artifact got a TOC row but no
body fragment, so the raw file's TOC id (2) differs from its fragment id (1). -/
theorem c1_counterexample :
    anchorIds (tocEntriesAux envC1
      (Report.parse_folder envC1 true (mkReport envC1)).fnames 1) = [1, 2]
    ∧ bodyIds (Report.parse_folder envC1 true (mkReport envC1)).html = [1]
    ∧ ([1, 2] : List Nat) ≠ [1] := by
  refine ⟨by decide, by decide, by decide⟩

/-! ## Claim C4: the `weird_data.bin` scenario -/

/-- The second component of a join is a suffix of the join. -/
theorem suffix_pyJoin (a b : Str) : b <:+ pyJoin a b :=
  ⟨a ++ ['/'], by simp [pyJoin]⟩

/-- The `T1.mgz` glob path always ends with `T1.mgz`. -/
theorem mriPath_endsWith (env : Env) :
    pyEndsWith (mriPath env) (sfx "T1.mgz") = true := by
  simp only [pyEndsWith, List.isSuffixOf_iff_suffix, mriPath]
  exact suffix_pyJoin _ _

/-- A scan root containing exactly the unrecognised file. -/
def envC4 : Env :=
  { scanFiles := [sfx "weird_data.bin"]
    subjects_dir := none
    subject := none
    title := sfx "t"
    readerOk := fun _ => true
    evokedComments := fun _ => []
    transIsScene := fun _ => true
    isDir := fun _ => false
    mriPresent := false
    bemDirPresent := false
    surfPresent := fun _ => false
    mriData := trivArr }

/-- Claim C4, counterexample: with `weird_data.bin` in the scan root the run
leaves the report untouched — zero fragments of any class and an empty TOC —
not one custom fragment and one Warning row. -/
theorem c4_counterexample :
    Report.parse_folder envC4 true (mkReport envC4) = mkReport envC4
    ∧ tocEntriesAux envC4 (Report.parse_folder envC4 true (mkReport envC4)).fnames 1 = []
    ∧ bodyIds (Report.parse_folder envC4 true (mkReport envC4)).html = []
    ∧ ([] : List TocEntry).length ≠ 1 := by
  refine ⟨by decide, by decide, by decide, by decide⟩

/-- Claim C4 (amended): `weird_data.bin` matches neither the `*.fif` scan
pattern nor the `T1.mgz` glob, so it is never visited by `parse_folder`: it
contributes no fragment of any kind and no TOC row at all (in particular not
the one custom fragment and Warning row the claim asserts). -/
theorem c4_amended (env : Env) (interactive : Bool)
    (hmem : sfx "weird_data.bin" ∈ env.scanFiles) :
    sfx "weird_data.bin" ∉ scanList env
    ∧ (env.scanFiles = [sfx "weird_data.bin"] → env.subjects_dir = none →
        Report.parse_folder env interactive (mkReport env) = mkReport env
        ∧ tocEntriesAux env
            (Report.parse_folder env interactive (mkReport env)).fnames 1 = []) := by
  constructor
  · intro hin
    rw [scanList] at hin
    rcases List.mem_append.mp hin with h | h
    · have hf := List.of_mem_filter h
      exact absurd hf (by decide)
    · by_cases hg : (env.subjects_dir.isSome && env.subject.isSome && env.mriPresent) = true
      · rw [if_pos hg] at h
        have heq : sfx "weird_data.bin" = mriPath env := List.mem_singleton.mp h
        have := mriPath_endsWith env
        rw [← heq] at this
        exact absurd this (by decide)
      · rw [if_neg hg] at h
        exact absurd h (List.not_mem_nil _)
  · intro hfiles hsub
    have hscan : scanList env = [] := by
      simp only [scanList, _recursive_search, hfiles, hsub, Option.isSome_none,
        Bool.false_and, Bool.false_eq_true, if_false, List.append_nil]
      decide
    constructor
    · rw [Report.parse_folder, hscan]
      rfl
    · rw [Report.parse_folder, hscan]
      rfl

/-- Claim C4 witness: the amended theorem applied to the concrete environment. -/
theorem c4_amended_witness :
    sfx "weird_data.bin" ∉ scanList envC4
    ∧ (envC4.scanFiles = [sfx "weird_data.bin"] → envC4.subjects_dir = none →
        Report.parse_folder envC4 true (mkReport envC4) = mkReport envC4
        ∧ tocEntriesAux envC4
            (Report.parse_folder envC4 true (mkReport envC4)).fnames 1 = []) :=
  c4_amended envC4 true (by decide)

/-! ## Claim C5: the TOC colour flag -/

/-- Claim C5, counterexample: `myfile_sss.fif` ends in `sss.fif` (classified
kind Raw by the cascade), yet its TOC row is flagged `red` (Warning) because
`sss.fif` is missing from the bad-naming suffix tuple — the claim asserts it
receives the Normal flag. -/
theorem c5_counterexample :
    pyEndsWith (sfx "myfile_sss.fif") (sfx "sss.fif") = true
    ∧ tocClassName (sfx "myfile_sss.fif") = sfx "raw"
    ∧ tocColor (sfx "myfile_sss.fif") = sfx "red"
    ∧ tocEntriesAux trivEnv [sfx "myfile_sss.fif"] 1
        = [.linked (sfx "raw") 1 (sfx "red") (sfx "myfile_sss.fif")]
    ∧ sfx "red" ≠ ([] : Str) := by
  refine ⟨by decide, by decide, by decide, by decide, by decide⟩

/-- Claim C5 (amended): the TOC flag is Warning (`red`) exactly when the file
name matches none of the eleven suffixes of the hard-coded tuple
(`-eve.fif`, `-ave.fif`, `-cov.fif`, `-sol.fif`, `-fwd.fif`, `-inv.fif`,
`-src.fif`, `-trans.fif`, `raw.fif`, `-epo.fif`, `T1.mgz`) — a list that is
independent of the classified kind and omits `sss.fif`.  Hence every
`...raw.fif` name is flagged Normal, `myfile.dat` is flagged Warning, and —
contrary to the claim — every `...sss.fif` name is flagged Warning even though
such files are classified as kind Raw. -/
theorem c5_amended :
    (∀ f : Str, tocColor f
        = (if badPatternSuffixes.any fun s => pyEndsWith f s then [] else sfx "red"))
    ∧ (∀ f : Str, pyEndsWith f (sfx "raw.fif") = true → tocColor f = [])
    ∧ (∀ f : Str, pyEndsWith f (sfx "sss.fif") = true → tocColor f = sfx "red")
    ∧ tocColor (sfx "myfile.dat") = sfx "red"
    ∧ tocColor (sfx "myfile_raw.fif") = [] := by
  refine ⟨?_, ?_, ?_, by decide, by decide⟩
  · intro f
    rw [tocColor]
    by_cases h : (badPatternSuffixes.any fun s => pyEndsWith f s) = true
    · simp [h]
    · simp only [Bool.not_eq_true] at h
      simp [h]
  · intro f h
    have hany : (badPatternSuffixes.any fun s => pyEndsWith f s) = true :=
      List.any_eq_true.mpr ⟨sfx "raw.fif", by decide, h⟩
    simp [tocColor, hany]
  · intro f h
    have hall : ∀ s ∈ badPatternSuffixes, pyEndsWith f s = false := by
      intro s hs
      fin_cases hs <;> exact pyEndsWith_eq_false_of_incompat _ _ h (by decide)
    have hany : (badPatternSuffixes.any fun s => pyEndsWith f s) = false := by
      rw [List.any_eq_false]
      intro s hs
      rw [hall s hs]
      decide
    simp [tocColor, hany]

/-- Claim C5 witness: the amended theorem applied to concrete names ending in
`raw.fif` and in `sss.fif`. -/
theorem c5_amended_witness :
    tocColor (sfx "x_raw.fif") = [] ∧ tocColor (sfx "x_sss.fif") = sfx "red" :=
  ⟨c5_amended.2.1 (sfx "x_raw.fif") (by decide),
   c5_amended.2.2.1 (sfx "x_sss.fif") (by decide)⟩

/-! ## Renderer-level lemmas -/

/-- A successful axe render on a non-empty slice list: contour flag off. -/
theorem one_axe_ok (slices : List (Nat × Mat)) (name : Str) (gid : Nat)
    (h : slices ≠ []) :
    ∃ ax, _render_one_axe slices name gid = .ok ax ∧ ax.contours = false
      ∧ ax.sliceIndices = slices.map Prod.fst := by
  cases slices with
  | nil => cases h rfl
  | cons p t =>
    exact ⟨_, rfl, rfl, rfl⟩

/-- A successful BEM axe render on a positive extent: contour flag on. -/
theorem bem_axe_ok (n : Nat) (name : Str) (gid : Nat) (h : 0 < n) :
    ∃ ax, _render_one_bem_axe n name gid = .ok ax ∧ ax.contours = true := by
  have h0 : (0 : Nat) ∈ rangeStep2 n := by
    rw [rangeStep2]
    exact List.mem_filter.mpr ⟨List.mem_range.mpr h, by decide⟩
  rw [_render_one_bem_axe]
  cases hr : rangeStep2 n with
  | nil =>
    rw [hr] at h0
    cases h0
  | cons a t =>
    exact ⟨_, rfl, rfl⟩

/-- With a limit list containing `0` and a positive extent, the guarded
iteration over `range n` is non-empty. -/
theorem filter_yield_ne (n : Nat) (l : List Nat) (hn : 0 < n) (h0 : 0 ∈ l) :
    (List.range n).filter (fun i => pyLimitsYield (some l) i) ≠ [] := by
  intro hemp
  have hmem : (0 : Nat) ∈ (List.range n).filter (fun i => pyLimitsYield (some l) i) := by
    refine List.mem_filter.mpr ⟨List.mem_range.mpr hn, ?_⟩
    have hc : l.contains 0 = true := List.elem_eq_true_of_mem h0
    simp only [pyLimitsYield, hc, Bool.or_true]
  rw [hemp] at hmem
  cases hmem

/-- The axial iterator with the every-other-slice limits is non-empty. -/
theorem iterate_axial_ne (a : Arr3) (h : 0 < a.ny) :
    _iterate_axial_slices a (some (rangeStep2 a.ny)) ≠ [] := by
  intro hemp
  have hf := filterMap_guard_fst (List.range a.ny)
    (fun i => pyLimitsYield (some (rangeStep2 a.ny)) i) (fun i => a.axl i)
  rw [_iterate_axial_slices] at hemp
  rw [hemp] at hf
  have h0 : (0 : Nat) ∈ rangeStep2 a.ny := by
    rw [rangeStep2]
    exact List.mem_filter.mpr ⟨List.mem_range.mpr h, by decide⟩
  exact filter_yield_ne a.ny (rangeStep2 a.ny) h h0 hf.symm

/-- The sagittal iterator with the every-other-slice limits is non-empty. -/
theorem iterate_sagittal_ne (a : Arr3) (h : 0 < a.nx) :
    _iterate_sagittal_slices a (some (rangeStep2 a.nx)) ≠ [] := by
  intro hemp
  have hf := filterMap_guard_fst (List.range a.nx)
    (fun i => pyLimitsYield (some (rangeStep2 a.nx)) i) (fun i => a.sag i)
  rw [_iterate_sagittal_slices] at hemp
  rw [hemp] at hf
  have h0 : (0 : Nat) ∈ rangeStep2 a.nx := by
    rw [rangeStep2]
    exact List.mem_filter.mpr ⟨List.mem_range.mpr h, by decide⟩
  exact filter_yield_ne a.nx (rangeStep2 a.nx) h h0 hf.symm

/-- The coronal iterator with the every-other-slice limits is non-empty. -/
theorem iterate_coronal_ne (a : Arr3) (h : 0 < a.nz) :
    _iterate_coronal_slices a (some (rangeStep2 a.nz)) ≠ [] := by
  intro hemp
  have hf := filterMap_guard_fst (List.range a.nz)
    (fun i => pyLimitsYield (some (rangeStep2 a.nz)) i)
    (fun i => coronalXform (a.cor i))
  rw [_iterate_coronal_slices] at hemp
  rw [hemp] at hf
  have h0 : (0 : Nat) ∈ rangeStep2 a.nz := by
    rw [rangeStep2]
    exact List.mem_filter.mpr ⟨List.mem_range.mpr h, by decide⟩
  exact filter_yield_ne a.nz (rangeStep2 a.nz) h h0 hf.symm

/-- A successful `_render_array` with positive dimensions: three plain
(non-contour) slider columns. -/
theorem array_ok (a : Arr3) (gid : Nat)
    (hx : 0 < a.nx) (hy : 0 < a.ny) (hz : 0 < a.nz) :
    ∃ axes, _render_array a gid (some (rangeStep2 a.nx)) (some (rangeStep2 a.ny))
        (some (rangeStep2 a.nz)) = .ok axes
      ∧ axes.length = 3 ∧ ∀ ax ∈ axes, ax.contours = false := by
  obtain ⟨ax1, he1, hc1, -⟩ :=
    one_axe_ok (_iterate_axial_slices a (some (rangeStep2 a.ny))) (sfx "axial") gid
      (iterate_axial_ne a hy)
  obtain ⟨ax2, he2, hc2, -⟩ :=
    one_axe_ok (_iterate_sagittal_slices a (some (rangeStep2 a.nx))) (sfx "sagittal") gid
      (iterate_sagittal_ne a hx)
  obtain ⟨ax3, he3, hc3, -⟩ :=
    one_axe_ok (_iterate_coronal_slices a (some (rangeStep2 a.nz))) (sfx "coronal") gid
      (iterate_coronal_ne a hz)
  refine ⟨[ax1, ax2, ax3], ?_, rfl, ?_⟩
  · rw [_render_array]
    rw [he1, he2, he3]
    rfl
  · intro ax hax
    rcases List.mem_cons.mp hax with rfl | hax
    · exact hc1
    rcases List.mem_cons.mp hax with rfl | hax
    · exact hc2
    rcases List.mem_cons.mp hax with rfl | hax
    · exact hc3
    cases hax

/-- A successful `_render_image`: one id allocated, one plain-volume slice
section appended, nothing else changed. -/
theorem image_ok (env : Env) (r : Report) (p : Str) (hm : env.mriPresent = true)
    (hx : 0 < env.mriData.nx) (hy : 0 < env.mriData.ny) (hz : 0 < env.mriData.nz) :
    ∃ axes, _render_image env r p =
      ({ r with initial_id := r.initial_id + 1,
                html := r.html ++ [.sliceSection (r.initial_id + 1) (pyBasename p) axes] },
        none)
      ∧ axes.length = 3 ∧ ∀ ax ∈ axes, ax.contours = false := by
  obtain ⟨axes, harr, hlen, hcont⟩ := array_ok env.mriData (r.initial_id + 1) hx hy hz
  refine ⟨axes, ?_, hlen, hcont⟩
  rw [_render_image, hm]
  simp only [Report._get_id, if_true]
  rw [harr]

/-- A failing `_render_image` changes neither the body nor the backing list nor
the warnings (it can only bump the id counter). -/
theorem image_fail (env : Env) (r : Report) (p : Str)
    (he : (_render_image env r p).2.isSome = true) :
    (_render_image env r p).1.html = r.html
    ∧ (_render_image env r p).1.fnames = r.fnames
    ∧ (_render_image env r p).1.warningsLog = r.warningsLog := by
  by_cases hm : env.mriPresent = true
  · rw [_render_image, if_pos hm] at he ⊢
    simp only [Report._get_id] at he ⊢
    cases harr : _render_array env.mriData (r.initial_id + 1)
        (some (rangeStep2 env.mriData.nx)) (some (rangeStep2 env.mriData.ny))
        (some (rangeStep2 env.mriData.nz)) with
    | ok axes =>
      rw [harr] at he
      exact Bool.noConfusion he
    | error e => exact ⟨rfl, rfl, rfl⟩
  · rw [_render_image, if_neg hm] at he ⊢
    exact ⟨rfl, rfl, rfl⟩

/-- The BEM fallback: with the MRI volume present (and positive dimensions)
but the bem directory or a required surface missing, `_render_bem` warns once
and delegates to the plain-volume image renderer, returning no error. -/
theorem bem_fallback (env : Env) (r : Report)
    (hsub : env.subjects_dir.isSome = true) (hm : env.mriPresent = true)
    (hx : 0 < env.mriData.nx) (hy : 0 < env.mriData.ny) (hz : 0 < env.mriData.nz)
    (hmiss : env.bemDirPresent = false ∨ ∃ s ∈ bemSurfNames, env.surfPresent s = false) :
    ∃ axes w, _render_bem env r =
      ({ r with initial_id := r.initial_id + 1,
                html := r.html ++ [.sliceSection (r.initial_id + 1)
                  (pyBasename (mriPath env)) axes],
                warningsLog := r.warningsLog ++ [w] }, none)
      ∧ axes.length = 3 ∧ (∀ ax ∈ axes, ax.contours = false) := by
  cases hd : env.subjects_dir with
  | none =>
    rw [hd] at hsub
    exact Bool.noConfusion hsub
  | some d =>
    rw [_render_bem, hd]
    simp only [if_pos hm]
    by_cases hb : env.bemDirPresent = false
    · rw [if_pos hb]
      obtain ⟨axes, himg, hlen, hcont⟩ := image_ok env
        { r with warningsLog :=
            r.warningsLog ++ [sfx "Subject bem directory does not exist"] }
        (mriPath env) hm hx hy hz
      refine ⟨axes, sfx "Subject bem directory does not exist", ?_, hlen, hcont⟩
      rw [himg]
    · rw [if_neg hb]
      have hbt : env.bemDirPresent = true := by
        cases hbv : env.bemDirPresent
        · exact absurd hbv hb
        · rfl
      have hmiss' : ∃ s ∈ bemSurfNames, env.surfPresent s = false := by
        rcases hmiss with h | h
        · exact absurd h hb
        · exact h
      obtain ⟨s0, hs0mem, hs0⟩ := hmiss'
      have hne : bemSurfNames.filter (fun s => !env.surfPresent s) ≠ [] := by
        apply List.ne_nil_of_mem (a := s0)
        refine List.mem_filter.mpr ⟨hs0mem, ?_⟩
        rw [hs0]
        rfl
      cases hfl : bemSurfNames.filter (fun s => !env.surfPresent s) with
      | nil => exact absurd hfl hne
      | cons m t =>
        simp only [List.head?]
        obtain ⟨axes, himg, hlen, hcont⟩ := image_ok env
          { r with warningsLog := r.warningsLog ++ [sfx "No surface found for " ++ m] }
          (mriPath env) hm hx hy hz
        refine ⟨axes, sfx "No surface found for " ++ m, ?_, hlen, hcont⟩
        rw [himg]

/-- Every successful `_render_bem` call (MRI present, positive dimensions)
allocates exactly one id and appends exactly one slice section. -/
theorem bem_ok (env : Env) (r : Report)
    (hsub : env.subjects_dir.isSome = true) (hm : env.mriPresent = true)
    (hx : 0 < env.mriData.nx) (hy : 0 < env.mriData.ny) (hz : 0 < env.mriData.nz) :
    ∃ nm axes w, _render_bem env r =
      ({ r with initial_id := r.initial_id + 1,
                html := r.html ++ [.sliceSection (r.initial_id + 1) nm axes],
                warningsLog := r.warningsLog ++ w }, none) := by
  by_cases hmiss : env.bemDirPresent = false ∨ ∃ s ∈ bemSurfNames, env.surfPresent s = false
  · obtain ⟨axes, w, heq, -, -⟩ := bem_fallback env r hsub hm hx hy hz hmiss
    exact ⟨pyBasename (mriPath env), axes, [w], heq⟩
  · push_neg at hmiss
    obtain ⟨hb, hsurf⟩ := hmiss
    have hbt : env.bemDirPresent = true := by
      cases hbv : env.bemDirPresent
      · exact absurd hbv hb
      · rfl
    have hall : ∀ s ∈ bemSurfNames, env.surfPresent s = true := by
      intro s hs
      cases hv : env.surfPresent s
      · exact absurd hv (hsurf s hs)
      · rfl
    have hfl : bemSurfNames.filter (fun s => !env.surfPresent s) = [] := by
      rw [List.filter_eq_nil_iff]
      intro s hs
      rw [hall s hs]
      decide
    cases hd : env.subjects_dir with
    | none =>
      rw [hd] at hsub
      exact Bool.noConfusion hsub
    | some d =>
      rw [_render_bem, hd]
      simp only [if_pos hm, if_neg hb, hfl, List.head?]
      obtain ⟨ax1, he1, -⟩ := bem_axe_ok env.mriData.ny (sfx "axial") (r.initial_id + 1) hy
      obtain ⟨ax2, he2, -⟩ := bem_axe_ok env.mriData.nx (sfx "sagittal") (r.initial_id + 1) hx
      obtain ⟨ax3, he3, -⟩ := bem_axe_ok env.mriData.nz (sfx "coronal") (r.initial_id + 1) hz
      simp only [Report._get_id]
      rw [he1, he2, he3]
      refine ⟨sfx "BEM", [ax1, ax2, ax3], [], ?_⟩
      simp

/-- A failing `_render_bem` leaves the body and the backing list unchanged. -/
theorem bem_fail (env : Env) (r : Report)
    (he : (_render_bem env r).2.isSome = true) :
    (_render_bem env r).1.html = r.html ∧ (_render_bem env r).1.fnames = r.fnames := by
  cases hd : env.subjects_dir with
  | none =>
    rw [_render_bem, hd] at he ⊢
    exact ⟨rfl, rfl⟩
  | some d =>
    rw [_render_bem, hd] at he ⊢
    by_cases hm : env.mriPresent = true
    · rw [if_pos hm] at he ⊢
      by_cases hbd : env.bemDirPresent = false
      · rw [if_pos hbd] at he ⊢
        exact ⟨(image_fail env _ _ he).1, (image_fail env _ _ he).2.1⟩
      · rw [if_neg hbd] at he ⊢
        cases hfl : bemSurfNames.filter (fun s => !env.surfPresent s) with
        | cons m t =>
          rw [hfl] at he
          simp only [List.head?] at he ⊢
          exact ⟨(image_fail env _ _ he).1, (image_fail env _ _ he).2.1⟩
        | nil =>
          rw [hfl] at he
          simp only [List.head?] at he ⊢
          rw [if_pos hm] at he ⊢
          cases h1 : _render_one_bem_axe env.mriData.ny (sfx "axial") r._get_id.1 with
          | error e =>
            rw [h1] at he
            exact ⟨rfl, rfl⟩
          | ok ax1 =>
            rw [h1] at he
            cases h2 : _render_one_bem_axe env.mriData.nx (sfx "sagittal") r._get_id.1 with
            | error e =>
              rw [h2] at he
              exact ⟨rfl, rfl⟩
            | ok ax2 =>
              rw [h2] at he
              cases h3 : _render_one_bem_axe env.mriData.nz (sfx "coronal") r._get_id.1 with
              | error e =>
                rw [h3] at he
                exact ⟨rfl, rfl⟩
              | ok ax3 =>
                rw [h3] at he
                exact Bool.noConfusion he
    · rw [if_neg hm] at he ⊢
      by_cases hbd : env.bemDirPresent = false
      · rw [if_pos hbd] at he ⊢
        exact ⟨(image_fail env _ _ he).1, (image_fail env _ _ he).2.1⟩
      · rw [if_neg hbd] at he ⊢
        cases hfl : bemSurfNames.filter (fun s => !env.surfPresent s) with
        | cons m t =>
          rw [hfl] at he
          simp only [List.head?] at he ⊢
          exact ⟨(image_fail env _ _ he).1, (image_fail env _ _ he).2.1⟩
        | nil =>
          rw [hfl] at he
          simp only [List.head?] at he ⊢
          rw [if_neg hm] at he ⊢
          exact ⟨rfl, rfl⟩


/-- A failing per-artifact render leaves the document body and the TOC backing
list unchanged (only the id counter and warnings may have advanced before the
raise). -/
theorem renderExcept_fail_inv (env : Env) (int : Bool) (r : Report) (f : Str)
    (he : (renderExcept env int r f).2.isSome = true) :
    (renderExcept env int r f).1.html = r.html
    ∧ (renderExcept env int r f).1.fnames = r.fnames := by
  rw [renderExcept] at he ⊢
  by_cases h1 : pyEndsWith f (sfx ".mgz") = true
  · rw [if_pos h1] at he ⊢
    cases hb : _render_bem env r with
    | mk r1 e =>
      cases e with
      | none =>
        rw [hb] at he
        exact Bool.noConfusion he
      | some e0 =>
        have hbf := bem_fail env r (by rw [hb]; rfl)
        rw [hb] at hbf
        exact hbf
  rw [if_neg h1] at he ⊢
  by_cases h2 : (pyEndsWith f (sfx "raw.fif") || pyEndsWith f (sfx "sss.fif")) = true
  · rw [if_pos h2] at he ⊢
    simp only [_render_raw, Report._get_id] at he ⊢
    by_cases hr : env.readerOk f = true
    · rw [if_pos hr] at he
      exact Bool.noConfusion he
    · rw [if_neg hr] at he ⊢
      exact ⟨rfl, rfl⟩
  rw [if_neg h2] at he ⊢
  by_cases h3 : (pyEndsWith f (sfx "-fwd.fif") || pyEndsWith f (sfx "-fwd.fif.gz")) = true
  · rw [if_pos h3] at he ⊢
    simp only [_render_forward, Report._get_id] at he ⊢
    by_cases hr : env.readerOk f = true
    · rw [if_pos hr] at he
      exact Bool.noConfusion he
    · rw [if_neg hr] at he ⊢
      exact ⟨rfl, rfl⟩
  rw [if_neg h3] at he ⊢
  by_cases h4 : pyEndsWith f (sfx "-ave.fif") = true
  · rw [if_pos h4] at he ⊢
    simp only [_render_evoked] at he ⊢
    by_cases hr : env.readerOk f = true
    · rw [if_pos hr] at he
      exact Bool.noConfusion he
    · rw [if_neg hr] at he ⊢
      exact ⟨rfl, rfl⟩
  rw [if_neg h4] at he ⊢
  by_cases h5 : pyEndsWith f (sfx "-eve.fif") = true
  · rw [if_pos h5] at he ⊢
    simp only [_render_eve, Report._get_id] at he ⊢
    by_cases hr : env.readerOk f = true
    · rw [if_pos hr] at he
      exact Bool.noConfusion he
    · rw [if_neg hr] at he ⊢
      exact ⟨rfl, rfl⟩
  rw [if_neg h5] at he ⊢
  by_cases h6 : pyEndsWith f (sfx "-epo.fif") = true
  · rw [if_pos h6] at he ⊢
    simp only [_render_epochs, Report._get_id] at he ⊢
    by_cases hr : env.readerOk f = true
    · rw [if_pos hr] at he
      exact Bool.noConfusion he
    · rw [if_neg hr] at he ⊢
      exact ⟨rfl, rfl⟩
  rw [if_neg h6] at he ⊢
  by_cases h7 : pyEndsWith f (sfx "-cov.fif") = true
  · rw [if_pos h7] at he ⊢
    simp only [_render_cov, Report._get_id] at he ⊢
    by_cases hr : env.readerOk f = true
    · rw [if_pos hr] at he
      exact Bool.noConfusion he
    · rw [if_neg hr] at he ⊢
      exact ⟨rfl, rfl⟩
  rw [if_neg h7] at he ⊢
  by_cases h8 : pyEndsWith f (sfx "-trans.fif") = true
  · rw [if_pos h8] at he ⊢
    simp only [_render_trans, Report._get_id] at he ⊢
    by_cases hr : env.readerOk f = true
    · rw [if_pos hr] at he
      by_cases hs : env.transIsScene f = true
      · rw [if_pos hs] at he
        exact Bool.noConfusion he
      · rw [if_neg hs] at he
        exact Bool.noConfusion he
    · rw [if_neg hr] at he ⊢
      exact ⟨rfl, rfl⟩
  rw [if_neg h8] at he ⊢
  by_cases h9 : env.isDir f = true
  · rw [if_pos h9] at he
    exact Bool.noConfusion he
  · rw [if_neg h9] at he
    exact Bool.noConfusion he

/-- The image renderer `_render_image` only ever appends to the document body. -/
theorem image_ext (env : Env) (r : Report) (p : Str) :
    ∃ l, (_render_image env r p).1.html = r.html ++ l := by
  by_cases hm : env.mriPresent = true
  · rw [_render_image, if_pos hm]
    simp only [Report._get_id]
    cases harr : _render_array env.mriData (r.initial_id + 1)
        (some (rangeStep2 env.mriData.nx)) (some (rangeStep2 env.mriData.ny))
        (some (rangeStep2 env.mriData.nz)) with
    | ok axes =>
      exact ⟨[.sliceSection (r.initial_id + 1) (pyBasename p) axes], rfl⟩
    | error e =>
      exact ⟨[], (List.append_nil _).symm⟩
  · rw [_render_image, if_neg hm]
    exact ⟨[], (List.append_nil _).symm⟩

/-- The BEM renderer `_render_bem` only ever appends to the document body. -/
theorem bem_ext (env : Env) (r : Report) :
    ∃ l, (_render_bem env r).1.html = r.html ++ l := by
  cases hd : env.subjects_dir with
  | none =>
    rw [_render_bem, hd]
    exact ⟨[], (List.append_nil _).symm⟩
  | some d =>
    rw [_render_bem, hd]
    by_cases hm : env.mriPresent = true
    · rw [if_pos hm]
      by_cases hbd : env.bemDirPresent = false
      · rw [if_pos hbd]
        exact image_ext env _ _
      · rw [if_neg hbd]
        cases hfl : bemSurfNames.filter (fun s => !env.surfPresent s) with
        | cons m t =>
          simp only [List.head?]
          exact image_ext env _ _
        | nil =>
          simp only [List.head?]
          rw [if_pos hm]
          cases h1 : _render_one_bem_axe env.mriData.ny (sfx "axial") r._get_id.1 with
          | error e => exact ⟨[], (List.append_nil _).symm⟩
          | ok ax1 =>
            cases h2 : _render_one_bem_axe env.mriData.nx (sfx "sagittal") r._get_id.1 with
            | error e => exact ⟨[], (List.append_nil _).symm⟩
            | ok ax2 =>
              cases h3 : _render_one_bem_axe env.mriData.nz (sfx "coronal") r._get_id.1 with
              | error e => exact ⟨[], (List.append_nil _).symm⟩
              | ok ax3 =>
                exact ⟨[.sliceSection r._get_id.1 (sfx "BEM") [ax1, ax2, ax3]], rfl⟩
    · rw [if_neg hm]
      by_cases hbd : env.bemDirPresent = false
      · rw [if_pos hbd]
        exact image_ext env _ _
      · rw [if_neg hbd]
        cases hfl : bemSurfNames.filter (fun s => !env.surfPresent s) with
        | cons m t =>
          simp only [List.head?]
          exact image_ext env _ _
        | nil =>
          simp only [List.head?]
          rw [if_neg hm]
          exact ⟨[], (List.append_nil _).symm⟩

/-- The evoked fold only ever appends to the document body. -/
theorem evoked_fold_ext (fn : Str) (conds : List Str) (r : Report) :
    ∃ l, (conds.foldl (evokedCondStep fn) r).html = r.html ++ l := by
  induction conds generalizing r with
  | nil => exact ⟨[], (List.append_nil _).symm⟩
  | cons c t ih =>
    obtain ⟨l, hl⟩ := ih (evokedCondStep fn r c)
    rw [List.foldl_cons, hl]
    refine ⟨Frag.imageF (sfx "evoked") (r.initial_id + 1)
      (sfx "Evoked : " ++ fn ++ sfx " (" ++ c ++ sfx ")") false :: l, ?_⟩
    simp [evokedCondStep, Report._get_id]

/-- One `parse_folder` iteration only ever appends to the document body. -/
theorem renderStep_html_ext (env : Env) (int : Bool) (r : Report) (f : Str) :
    ∃ l, (renderStep env int r f).html = r.html ++ l := by
  rw [renderStep, renderExcept]
  by_cases h1 : pyEndsWith f (sfx ".mgz") = true
  · rw [if_pos h1]
    cases hb : _render_bem env r with
    | mk r1 e =>
      obtain ⟨l, hl⟩ := bem_ext env r
      rw [hb] at hl
      cases e with
      | none => exact ⟨l, hl⟩
      | some e0 => exact ⟨l, hl⟩
  rw [if_neg h1]
  by_cases h2 : (pyEndsWith f (sfx "raw.fif") || pyEndsWith f (sfx "sss.fif")) = true
  · rw [if_pos h2]
    simp only [_render_raw, Report._get_id]
    by_cases hr : env.readerOk f = true
    · rw [if_pos hr]
      exact ⟨_, rfl⟩
    · rw [if_neg hr]
      exact ⟨[], (List.append_nil _).symm⟩
  rw [if_neg h2]
  by_cases h3 : (pyEndsWith f (sfx "-fwd.fif") || pyEndsWith f (sfx "-fwd.fif.gz")) = true
  · rw [if_pos h3]
    simp only [_render_forward, Report._get_id]
    by_cases hr : env.readerOk f = true
    · rw [if_pos hr]
      exact ⟨_, rfl⟩
    · rw [if_neg hr]
      exact ⟨[], (List.append_nil _).symm⟩
  rw [if_neg h3]
  by_cases h4 : pyEndsWith f (sfx "-ave.fif") = true
  · rw [if_pos h4]
    simp only [_render_evoked]
    by_cases hr : env.readerOk f = true
    · rw [if_pos hr]
      obtain ⟨l, hl⟩ := evoked_fold_ext f (env.evokedComments f) r
      exact ⟨l, hl⟩
    · rw [if_neg hr]
      exact ⟨[], (List.append_nil _).symm⟩
  rw [if_neg h4]
  by_cases h5 : pyEndsWith f (sfx "-eve.fif") = true
  · rw [if_pos h5]
    simp only [_render_eve, Report._get_id]
    by_cases hr : env.readerOk f = true
    · rw [if_pos hr]
      exact ⟨_, rfl⟩
    · rw [if_neg hr]
      exact ⟨[], (List.append_nil _).symm⟩
  rw [if_neg h5]
  by_cases h6 : pyEndsWith f (sfx "-epo.fif") = true
  · rw [if_pos h6]
    simp only [_render_epochs, Report._get_id]
    by_cases hr : env.readerOk f = true
    · rw [if_pos hr]
      exact ⟨_, rfl⟩
    · rw [if_neg hr]
      exact ⟨[], (List.append_nil _).symm⟩
  rw [if_neg h6]
  by_cases h7 : pyEndsWith f (sfx "-cov.fif") = true
  · rw [if_pos h7]
    simp only [_render_cov, Report._get_id]
    by_cases hr : env.readerOk f = true
    · rw [if_pos hr]
      exact ⟨_, rfl⟩
    · rw [if_neg hr]
      exact ⟨[], (List.append_nil _).symm⟩
  rw [if_neg h7]
  by_cases h8 : pyEndsWith f (sfx "-trans.fif") = true
  · rw [if_pos h8]
    simp only [_render_trans, Report._get_id]
    by_cases hr : env.readerOk f = true
    · rw [if_pos hr]
      by_cases hs : env.transIsScene f = true
      · rw [if_pos hs]
        exact ⟨_, rfl⟩
      · rw [if_neg hs]
        exact ⟨[], (List.append_nil _).symm⟩
    · rw [if_neg hr]
      exact ⟨[], (List.append_nil _).symm⟩
  rw [if_neg h8]
  by_cases h9 : env.isDir f = true
  · rw [if_pos h9]
    exact ⟨[], (List.append_nil _).symm⟩
  · rw [if_neg h9]
    exact ⟨[], (List.append_nil _).symm⟩

/-- The whole scan loop only ever appends to the document body. -/
theorem foldl_html_ext (env : Env) (int : Bool) :
    ∀ (files : List Str) (r : Report),
      ∃ l, (files.foldl (renderStep env int) r).html = r.html ++ l := by
  intro files
  induction files with
  | nil =>
    intro r
    exact ⟨[], (List.append_nil _).symm⟩
  | cons f t ih =>
    intro r
    obtain ⟨l1, h1⟩ := renderStep_html_ext env int r f
    obtain ⟨l2, h2⟩ := ih (renderStep env int r f)
    rw [List.foldl_cons, h2, h1]
    exact ⟨l1 ++ l2, by rw [List.append_assoc]⟩

/-- Saving always produces a document starting with the header and ending with
the footer, for any state whose body still starts with the header. -/
theorem save_doc_shape (env : Env) (r : Report)
    (h : r.html.head? = some (Frag.headerF env.title)) :
    (Report.save env r).html.head? = some (Frag.headerF env.title)
    ∧ (Report.save env r).html.getLast? = some Frag.footerF := by
  cases hh : r.html with
  | nil =>
    rw [hh] at h
    cases h
  | cons a t =>
    rw [hh] at h
    have ha : a = Frag.headerF env.title := by
      simpa using h
    rw [Report.save, Report._render_toc, hh, ha]
    constructor
    · rfl
    · exact List.getLast?_concat _

/-! ## Claim C6: per-artifact failure containment -/

/-- Claim C6: if the render of one scanned file raises, the exception is caught
at the per-artifact level: that artifact contributes no fragment and no entry
to the TOC backing list, the loop continues with every remaining file from the
caught state, and `save` still produces a document with the header first and
the footer last. -/
theorem c6_reader_failure (env : Env) (interactive : Bool) (pre post : List Str) (f : Str)
    (hscan : scanList env = pre ++ f :: post)
    (hf : (renderExcept env interactive
        (pre.foldl (renderStep env interactive) (mkReport env)) f).2.isSome = true) :
    (renderStep env interactive (pre.foldl (renderStep env interactive) (mkReport env)) f).html
        = (pre.foldl (renderStep env interactive) (mkReport env)).html
    ∧ (renderStep env interactive
          (pre.foldl (renderStep env interactive) (mkReport env)) f).fnames
        = (pre.foldl (renderStep env interactive) (mkReport env)).fnames
    ∧ Report.parse_folder env interactive (mkReport env)
        = post.foldl (renderStep env interactive)
            (renderStep env interactive
              (pre.foldl (renderStep env interactive) (mkReport env)) f)
    ∧ (Report.save env (Report.parse_folder env interactive (mkReport env))).html.head?
        = some (Frag.headerF env.title)
    ∧ (Report.save env (Report.parse_folder env interactive (mkReport env))).html.getLast?
        = some Frag.footerF := by
  have hinv := renderExcept_fail_inv env interactive _ f hf
  have hpar : Report.parse_folder env interactive (mkReport env)
      = post.foldl (renderStep env interactive)
          (renderStep env interactive
            (pre.foldl (renderStep env interactive) (mkReport env)) f) := by
    rw [Report.parse_folder, hscan, List.foldl_append, List.foldl_cons]
  have hhead : (Report.parse_folder env interactive (mkReport env)).html.head?
      = some (Frag.headerF env.title) := by
    obtain ⟨l, hl⟩ := foldl_html_ext env interactive (scanList env) (mkReport env)
    rw [Report.parse_folder, hl]
    rfl
  obtain ⟨hsh, hsl⟩ := save_doc_shape env _ hhead
  exact ⟨hinv.1, hinv.2, hpar, hsh, hsl⟩

/-- A scan with one unreadable raw file followed by one readable raw file. -/
def envC6 : Env :=
  { scanFiles := [sfx "bad_raw.fif", sfx "good_raw.fif"]
    subjects_dir := none
    subject := none
    title := sfx "t"
    readerOk := fun s => s ≠ sfx "bad_raw.fif"
    evokedComments := fun _ => []
    transIsScene := fun _ => true
    isDir := fun _ => false
    mriPresent := false
    bemDirPresent := false
    surfPresent := fun _ => false
    mriData := trivArr }

/-- Claim C6 witness: the theorem applied to a concrete scan in which the first
raw file's reader throws. -/
theorem c6_reader_failure_witness :
    (renderStep envC6 true ([].foldl (renderStep envC6 true) (mkReport envC6))
        (sfx "bad_raw.fif")).html
      = ([].foldl (renderStep envC6 true) (mkReport envC6)).html
    ∧ (renderStep envC6 true ([].foldl (renderStep envC6 true) (mkReport envC6))
          (sfx "bad_raw.fif")).fnames
        = ([].foldl (renderStep envC6 true) (mkReport envC6)).fnames
    ∧ Report.parse_folder envC6 true (mkReport envC6)
        = [sfx "good_raw.fif"].foldl (renderStep envC6 true)
            (renderStep envC6 true ([].foldl (renderStep envC6 true) (mkReport envC6))
              (sfx "bad_raw.fif"))
    ∧ (Report.save envC6 (Report.parse_folder envC6 true (mkReport envC6))).html.head?
        = some (Frag.headerF envC6.title)
    ∧ (Report.save envC6 (Report.parse_folder envC6 true (mkReport envC6))).html.getLast?
        = some Frag.footerF :=
  c6_reader_failure envC6 true [] [sfx "good_raw.fif"] (sfx "bad_raw.fif")
    (by decide) (by decide)

/-! ## Claim C7: BEM fallback -/

/-- A subject whose MRI volume is absent while the bem directory and all three
surfaces are present. -/
def envC7 : Env :=
  { scanFiles := []
    subjects_dir := some (sfx "sd")
    subject := some (sfx "s")
    title := sfx "t"
    readerOk := fun _ => true
    evokedComments := fun _ => []
    transIsScene := fun _ => true
    isDir := fun _ => false
    mriPresent := false
    bemDirPresent := true
    surfPresent := fun _ => true
    mriData := trivArr }

/-- Claim C7, counterexample: with the anatomical volume absent (and the bem
assets all present), `_render_bem` does *not* fall back to plain-volume
rendering — it proceeds, fails to load the volume, and propagates an
exception, appending no section at all. -/
theorem c7_counterexample :
    (_render_bem envC7 (mkReport envC7)).2.isSome = true
    ∧ (_render_bem envC7 (mkReport envC7)).1.html = (mkReport envC7).html := by
  refine ⟨by decide, by decide⟩

/-- Claim C7 (amended): the local fallback happens exactly when the *bem
directory or a required surface* is missing while the anatomical volume is
present (with its three dimensions positive): then `_render_bem` renders the
plain volume alone — one slice section with three slider groups and no contour
overlays — records a diagnostic warning, and returns without error.  When the
anatomical volume itself is the missing asset, the builder instead raises (see
the counterexample). -/
theorem c7_amended (env : Env) (r : Report)
    (hsub : env.subjects_dir.isSome = true) (hm : env.mriPresent = true)
    (hx : 0 < env.mriData.nx) (hy : 0 < env.mriData.ny) (hz : 0 < env.mriData.nz)
    (hmiss : env.bemDirPresent = false ∨ ∃ s ∈ bemSurfNames, env.surfPresent s = false) :
    (_render_bem env r).2 = none
    ∧ ∃ axes w,
        (_render_bem env r).1.html
          = r.html ++ [.sliceSection (r.initial_id + 1) (pyBasename (mriPath env)) axes]
        ∧ axes.length = 3 ∧ (∀ ax ∈ axes, ax.contours = false)
        ∧ (_render_bem env r).1.warningsLog = r.warningsLog ++ [w]
        ∧ (_render_bem env r).1.fnames = r.fnames := by
  obtain ⟨axes, w, heq, hlen, hcont⟩ := bem_fallback env r hsub hm hx hy hz hmiss
  rw [heq]
  exact ⟨rfl, axes, w, rfl, hlen, hcont, rfl, rfl⟩

/-- The same subject with the MRI present but an empty bem directory. -/
def envC7W : Env :=
  { scanFiles := []
    subjects_dir := some (sfx "sd")
    subject := some (sfx "s")
    title := sfx "t"
    readerOk := fun _ => true
    evokedComments := fun _ => []
    transIsScene := fun _ => true
    isDir := fun _ => false
    mriPresent := true
    bemDirPresent := false
    surfPresent := fun _ => true
    mriData := trivArr }

/-- Claim C7 witness: the amended theorem applied to the concrete subject with
`mri/T1.mgz` present and the bem directory missing. -/
theorem c7_amended_witness :
    (_render_bem envC7W (mkReport envC7W)).2 = none
    ∧ ∃ axes w,
        (_render_bem envC7W (mkReport envC7W)).1.html
          = (mkReport envC7W).html ++ [.sliceSection ((mkReport envC7W).initial_id + 1)
              (pyBasename (mriPath envC7W)) axes]
        ∧ axes.length = 3 ∧ (∀ ax ∈ axes, ax.contours = false)
        ∧ (_render_bem envC7W (mkReport envC7W)).1.warningsLog
            = (mkReport envC7W).warningsLog ++ [w]
        ∧ (_render_bem envC7W (mkReport envC7W)).1.fnames = (mkReport envC7W).fnames :=
  c7_amended envC7W (mkReport envC7W) (by decide) (by decide)
    (by decide) (by decide) (by decide) (Or.inl rfl)

/-! ## Claim C8: the empty slice range -/

/-- Claim C8: slider construction on an empty index sequence fails with the
index error, and any per-artifact render that ends in an error is absorbed
exactly at the per-artifact catch boundary: the loop keeps the caught state
(body unchanged) and continues with the remaining files. -/
theorem c8_empty_slider (env : Env) (int : Bool) (r : Report) (f : Str)
    (post : List Str) :
    (∀ ks sid : Str, _build_html_slider [] ks sid = .error .indexError)
    ∧ ((renderExcept env int r f).2.isSome = true →
        (f :: post).foldl (renderStep env int) r
          = post.foldl (renderStep env int) ((renderExcept env int r f).1)
        ∧ (renderExcept env int r f).1.html = r.html) := by
  constructor
  · intro ks sid
    rfl
  · intro he
    constructor
    · rw [List.foldl_cons]
      rfl
    · exact (renderExcept_fail_inv env int r f he).1

/-- A subject configuration whose MRI volume has a zero axial extent, so the
plain-volume fallback builds a slider over an empty slice range. -/
def envC8 : Env :=
  { scanFiles := []
    subjects_dir := some (sfx "sd")
    subject := some (sfx "s")
    title := sfx "t"
    readerOk := fun _ => true
    evokedComments := fun _ => []
    transIsScene := fun _ => true
    isDir := fun _ => false
    mriPresent := true
    bemDirPresent := false
    surfPresent := fun _ => true
    mriData := ⟨1, 0, 1, fun _ _ _ => 0⟩ }

/-- Claim C8 witness: on the concrete volume with an empty axial range the
per-artifact render raises exactly the index error, and the theorem's catch
boundary applies there. -/
theorem c8_empty_slider_witness :
    (renderExcept envC8 true (mkReport envC8) (sfx "sd/s/mri/T1.mgz")).2
      = some PyErr.indexError
    ∧ ((sfx "sd/s/mri/T1.mgz") :: []).foldl (renderStep envC8 true) (mkReport envC8)
        = [].foldl (renderStep envC8 true)
            ((renderExcept envC8 true (mkReport envC8) (sfx "sd/s/mri/T1.mgz")).1)
    ∧ (renderExcept envC8 true (mkReport envC8) (sfx "sd/s/mri/T1.mgz")).1.html
        = (mkReport envC8).html :=
  ⟨by decide,
   ((c8_empty_slider envC8 true (mkReport envC8) (sfx "sd/s/mri/T1.mgz") []).2
      (by decide)).1,
   ((c8_empty_slider envC8 true (mkReport envC8) (sfx "sd/s/mri/T1.mgz") []).2
      (by decide)).2⟩

/-! ## Claim C1 (amended part): aligning body ids with TOC anchor ids -/

/-- The number of anchor ids the TOC pass consumes for a backing list. -/
def tocNumIds (env : Env) : List Str → Nat
  | [] => 0
  | fname :: rest =>
    (if tocLinkedSuffixes.any fun s => pyEndsWith fname s then 1
     else if pyEndsWith fname (sfx "-ave.fif") then (env.evokedComments fname).length
     else 1) + tocNumIds env rest

/-- The count `tocNumIds` is additive over list concatenation. -/
theorem tocNumIds_append (env : Env) (l1 l2 : List Str) :
    tocNumIds env (l1 ++ l2) = tocNumIds env l1 + tocNumIds env l2 := by
  induction l1 with
  | nil => simp [tocNumIds]
  | cons f t ih =>
    rw [List.cons_append, tocNumIds, tocNumIds, ih, Nat.add_assoc]

/-- The projection `bodyIds` is additive over list concatenation. -/
theorem bodyIds_append (x y : List Frag) :
    bodyIds (x ++ y) = bodyIds x ++ bodyIds y := by
  rw [bodyIds, bodyIds, bodyIds, List.filterMap_append]

/-- A `filterMap` that always succeeds is a `map`. -/
theorem filterMap_some_fn {α β : Type} (L : List α) (f : α → β) :
    (L.filterMap fun a => some (f a)) = L.map f := by
  induction L with
  | nil => rfl
  | cons a t ih => simp [ih]

/-- The anchor ids emitted by the TOC pass are exactly the consecutive block
starting at the running counter. -/
theorem anchorIds_tocEntries (env : Env) :
    ∀ (fnames : List Str) (g : Nat),
      anchorIds (tocEntriesAux env fnames g) = List.range' g (tocNumIds env fnames) := by
  intro fnames
  induction fnames with
  | nil => intro g; rfl
  | cons fname rest ih =>
    intro g
    rw [tocEntriesAux, tocNumIds]
    by_cases h1 : (tocLinkedSuffixes.any fun s => pyEndsWith fname s) = true
    · rw [if_pos h1, if_pos h1]
      rw [anchorIds, List.filterMap_cons]
      simp only [anchorId]
      rw [show List.filterMap anchorId (tocEntriesAux env rest (g + 1))
            = anchorIds (tocEntriesAux env rest (g + 1)) from rfl]
      rw [ih (g + 1), Nat.add_comm 1 (tocNumIds env rest), List.range'_succ]
    · rw [if_neg h1, if_neg h1]
      by_cases h2 : pyEndsWith fname (sfx "-ave.fif") = true
      · rw [if_pos h2, if_pos h2]
        rw [anchorIds, List.cons_append, List.filterMap_cons]
        simp only [anchorId]
        rw [List.filterMap_append]
        rw [show List.filterMap anchorId (tocEntriesAux env rest
              (g + (env.evokedComments fname).length))
            = anchorIds (tocEntriesAux env rest (g + (env.evokedComments fname).length))
            from rfl]
        rw [ih (g + (env.evokedComments fname).length)]
        rw [List.filterMap_map]
        have hmap : (List.filterMap
              ((fun e => anchorId e) ∘ fun i =>
                TocEntry.evokedCond (g + i) (tocColor fname)
                  ((env.evokedComments fname).getD i []))
              (List.range (env.evokedComments fname).length))
            = (List.range (env.evokedComments fname).length).map fun i => g + i := by
          rw [show ((fun e => anchorId e) ∘ fun i =>
                TocEntry.evokedCond (g + i) (tocColor fname)
                  ((env.evokedComments fname).getD i []))
              = fun i => some (g + i) from rfl]
          exact filterMap_some_fn _ _
        rw [hmap, ← List.range'_eq_map_range]
        have := List.range'_append g (env.evokedComments fname).length
          (tocNumIds env rest) 1
        rw [Nat.one_mul] at this
        rw [this, Nat.add_comm]
      · rw [if_neg h2, if_neg h2]
        by_cases h3 : fname = sfx "bem"
        · rw [if_pos h3]
          rw [anchorIds, List.filterMap_cons]
          simp only [anchorId]
          rw [show List.filterMap anchorId (tocEntriesAux env rest (g + 1))
                = anchorIds (tocEntriesAux env rest (g + 1)) from rfl]
          rw [ih (g + 1), Nat.add_comm 1 (tocNumIds env rest), List.range'_succ]
        · rw [if_neg h3]
          rw [anchorIds, List.filterMap_cons]
          simp only [anchorId]
          rw [show List.filterMap anchorId (tocEntriesAux env rest (g + 1))
                = anchorIds (tocEntriesAux env rest (g + 1)) from rfl]
          rw [ih (g + 1), Nat.add_comm 1 (tocNumIds env rest), List.range'_succ]

/-- Every file visited by `parse_folder` ends in `.fif` (the scan pattern) or
in `T1.mgz` (the subject glob). -/
def scannedShape (f : Str) : Prop :=
  pyEndsWith f (sfx ".fif") = true ∨ pyEndsWith f (sfx "T1.mgz") = true

/-- The scan list only contains files of the two scanned shapes. -/
theorem scanList_shape (env : Env) : ∀ f ∈ scanList env, scannedShape f := by
  intro f hf
  rw [scanList] at hf
  rcases List.mem_append.mp hf with h | h
  · left
    have := List.of_mem_filter h
    exact this
  · by_cases hg : (env.subjects_dir.isSome && env.subject.isSome && env.mriPresent) = true
    · rw [if_pos hg] at h
      right
      have heq : f = mriPath env := List.mem_singleton.mp h
      rw [heq]
      exact mriPath_endsWith env
    · rw [if_neg hg] at h
      exact absurd h (List.not_mem_nil _)

/-- Full characterisation of the evoked fold: one id and one fragment per
condition, backing list untouched. -/
theorem evoked_fold_spec (fn : Str) (conds : List Str) (r : Report) :
    (conds.foldl (evokedCondStep fn) r).initial_id = r.initial_id + conds.length
    ∧ (conds.foldl (evokedCondStep fn) r).fnames = r.fnames
    ∧ bodyIds (conds.foldl (evokedCondStep fn) r).html
        = bodyIds r.html ++ List.range' (r.initial_id + 1) conds.length := by
  induction conds generalizing r with
  | nil =>
    exact ⟨rfl, rfl, by simp⟩
  | cons c t ih =>
    have hstep : evokedCondStep fn r c
        = { r with initial_id := r.initial_id + 1,
                   html := r.html ++ [.imageF (sfx "evoked") (r.initial_id + 1)
                     (sfx "Evoked : " ++ fn ++ sfx " (" ++ c ++ sfx ")") false] } := rfl
    obtain ⟨hid, hfn, hb⟩ := ih (evokedCondStep fn r c)
    rw [List.foldl_cons]
    refine ⟨?_, ?_, ?_⟩
    · rw [hid, hstep]
      simp only [List.length_cons]
      omega
    · rw [hfn, hstep]
    · rw [hb, hstep]
      simp only [List.length_cons]
      rw [bodyIds_append]
      have hsingle : bodyIds [Frag.imageF (sfx "evoked") (r.initial_id + 1)
          (sfx "Evoked : " ++ fn ++ sfx " (" ++ c ++ sfx ")") false]
          = [r.initial_id + 1] := rfl
      rw [hsingle, List.append_assoc]
      congr 1

/-- Membership witness for the linked-row suffix test. -/
theorem linked_any_of (f s : Str) (hs : s ∈ tocLinkedSuffixes)
    (h : pyEndsWith f s = true) :
    (tocLinkedSuffixes.any fun t => pyEndsWith f t) = true :=
  List.any_eq_true.mpr ⟨s, hs, h⟩

/-- A linked-suffix file consumes exactly one TOC anchor. -/
theorem tocNumIds_single_linked (env : Env) (f : Str)
    (h : (tocLinkedSuffixes.any fun s => pyEndsWith f s) = true) :
    tocNumIds env [f] = 1 := by
  rw [tocNumIds, if_pos h, tocNumIds]

/-- One successful `parse_folder` iteration (readers succeed, trans plots are
scenes, BEM assets sane) allocates a block of `k` consecutive ids, appends
exactly the fragments carrying those ids, and extends the TOC backing list by
entries consuming exactly `k` anchors. -/
theorem renderStep_spec (env : Env) (int : Bool) (r : Report) (f : Str)
    (hshape : scannedShape f)
    (hreader : env.readerOk f = true)
    (htrans : pyEndsWith f (sfx "-trans.fif") = true → env.transIsScene f = true)
    (hbem : pyEndsWith f (sfx ".mgz") = true →
      env.subjects_dir.isSome = true ∧ env.mriPresent = true ∧
      0 < env.mriData.nx ∧ 0 < env.mriData.ny ∧ 0 < env.mriData.nz) :
    ∃ k, (renderStep env int r f).initial_id = r.initial_id + k
      ∧ bodyIds (renderStep env int r f).html
          = bodyIds r.html ++ List.range' (r.initial_id + 1) k
      ∧ tocNumIds env (renderStep env int r f).fnames
          = tocNumIds env r.fnames + k := by
  rw [renderStep, renderExcept]
  by_cases h1 : pyEndsWith f (sfx ".mgz") = true
  · rw [if_pos h1]
    obtain ⟨hsub, hm, hx, hy, hz⟩ := hbem h1
    obtain ⟨nm, axes, w, heq⟩ := bem_ok env r hsub hm hx hy hz
    rw [heq]
    dsimp only
    refine ⟨1, rfl, ?_, ?_⟩
    · rw [bodyIds_append, List.range'_one]
      rfl
    · rw [tocNumIds_append]
      have hbem1 : tocNumIds env [sfx "bem"] = 1 := by
        rw [tocNumIds, if_neg (by decide), if_neg (by decide), tocNumIds]
      rw [hbem1]
  rw [if_neg h1]
  have hfif : pyEndsWith f (sfx ".fif") = true := by
    rcases hshape with h | h
    · exact h
    · exact absurd (pyEndsWith_of_suffix h (by decide)) h1
  by_cases h2 : (pyEndsWith f (sfx "raw.fif") || pyEndsWith f (sfx "sss.fif")) = true
  · rw [if_pos h2]
    simp only [_render_raw, Report._get_id]
    rw [if_pos hreader]
    dsimp only
    have hlink : (tocLinkedSuffixes.any fun s => pyEndsWith f s) = true := by
      have h2' : pyEndsWith f (sfx "raw.fif") = true
          ∨ pyEndsWith f (sfx "sss.fif") = true := by
        simpa using h2
      rcases h2' with h | h
      · exact linked_any_of f (sfx "raw.fif") (by decide) h
      · exact linked_any_of f (sfx "sss.fif") (by decide) h
    refine ⟨1, rfl, ?_, ?_⟩
    · rw [bodyIds_append, List.range'_one]
      rfl
    · rw [tocNumIds_append, tocNumIds_single_linked env f hlink]
  rw [if_neg h2]
  by_cases h3 : (pyEndsWith f (sfx "-fwd.fif") || pyEndsWith f (sfx "-fwd.fif.gz")) = true
  · rw [if_pos h3]
    have hgz : pyEndsWith f (sfx "-fwd.fif.gz") = false :=
      pyEndsWith_eq_false_of_incompat (sfx ".fif") (sfx "-fwd.fif.gz") hfif (by decide)
    have hfwd : pyEndsWith f (sfx "-fwd.fif") = true := by
      rw [hgz] at h3
      simpa using h3
    simp only [_render_forward, Report._get_id]
    rw [if_pos hreader]
    dsimp only
    have hlink : (tocLinkedSuffixes.any fun s => pyEndsWith f s) = true :=
      linked_any_of f (sfx "-fwd.fif") (by decide) hfwd
    refine ⟨1, rfl, ?_, ?_⟩
    · rw [bodyIds_append, List.range'_one]
      rfl
    · rw [tocNumIds_append, tocNumIds_single_linked env f hlink]
  rw [if_neg h3]
  by_cases h4 : pyEndsWith f (sfx "-ave.fif") = true
  · rw [if_pos h4]
    simp only [_render_evoked]
    rw [if_pos hreader]
    obtain ⟨hid, hfn, hb⟩ := evoked_fold_spec f (env.evokedComments f) r
    have hall : ∀ s ∈ tocLinkedSuffixes, pyEndsWith f s = false := by
      intro s hs
      fin_cases hs <;> exact pyEndsWith_eq_false_of_incompat _ _ h4 (by decide)
    have hlinkF : (tocLinkedSuffixes.any fun s => pyEndsWith f s) = false := by
      rw [List.any_eq_false]
      intro s hs
      rw [hall s hs]
      decide
    refine ⟨(env.evokedComments f).length, ?_, ?_, ?_⟩
    · dsimp only
      exact hid
    · dsimp only
      exact hb
    · dsimp only
      rw [hfn, tocNumIds_append]
      have have1 : tocNumIds env [f] = (env.evokedComments f).length := by
        rw [tocNumIds, if_neg (by rw [hlinkF]; decide), if_pos h4, tocNumIds,
          Nat.add_zero]
      rw [have1]
  rw [if_neg h4]
  by_cases h5 : pyEndsWith f (sfx "-eve.fif") = true
  · rw [if_pos h5]
    simp only [_render_eve, Report._get_id]
    rw [if_pos hreader]
    dsimp only
    have hlink : (tocLinkedSuffixes.any fun s => pyEndsWith f s) = true :=
      linked_any_of f (sfx "-eve.fif") (by decide) h5
    refine ⟨1, rfl, ?_, ?_⟩
    · rw [bodyIds_append, List.range'_one]
      rfl
    · rw [tocNumIds_append, tocNumIds_single_linked env f hlink]
  rw [if_neg h5]
  by_cases h6 : pyEndsWith f (sfx "-epo.fif") = true
  · rw [if_pos h6]
    simp only [_render_epochs, Report._get_id]
    rw [if_pos hreader]
    dsimp only
    have hlink : (tocLinkedSuffixes.any fun s => pyEndsWith f s) = true :=
      linked_any_of f (sfx "-epo.fif") (by decide) h6
    refine ⟨1, rfl, ?_, ?_⟩
    · rw [bodyIds_append, List.range'_one]
      rfl
    · rw [tocNumIds_append, tocNumIds_single_linked env f hlink]
  rw [if_neg h6]
  by_cases h7 : pyEndsWith f (sfx "-cov.fif") = true
  · rw [if_pos h7]
    simp only [_render_cov, Report._get_id]
    rw [if_pos hreader]
    dsimp only
    have hlink : (tocLinkedSuffixes.any fun s => pyEndsWith f s) = true :=
      linked_any_of f (sfx "-cov.fif") (by decide) h7
    refine ⟨1, rfl, ?_, ?_⟩
    · rw [bodyIds_append, List.range'_one]
      rfl
    · rw [tocNumIds_append, tocNumIds_single_linked env f hlink]
  rw [if_neg h7]
  by_cases h8 : pyEndsWith f (sfx "-trans.fif") = true
  · rw [if_pos h8]
    simp only [_render_trans, Report._get_id]
    rw [if_pos hreader, if_pos (htrans h8)]
    dsimp only
    have hlink : (tocLinkedSuffixes.any fun s => pyEndsWith f s) = true :=
      linked_any_of f (sfx "-trans.fif") (by decide) h8
    refine ⟨1, rfl, ?_, ?_⟩
    · rw [bodyIds_append, List.range'_one]
      rfl
    · rw [tocNumIds_append, tocNumIds_single_linked env f hlink]
  rw [if_neg h8]
  by_cases h9 : env.isDir f = true
  · rw [if_pos h9]
    exact ⟨0, rfl, by simp, rfl⟩
  · rw [if_neg h9]
    exact ⟨0, rfl, by simp, rfl⟩

/-- The two-counter invariant carried through the scan loop: the body ids form
the consecutive block `1..initial_id`, and the TOC pass consumes exactly
`initial_id` anchors for the accumulated backing list. -/
theorem parse_invariant (env : Env) (int : Bool) :
    ∀ (files : List Str) (r : Report),
      (∀ f ∈ files, scannedShape f) →
      (∀ f ∈ files, env.readerOk f = true) →
      (∀ f ∈ files, pyEndsWith f (sfx "-trans.fif") = true →
        env.transIsScene f = true) →
      (∀ f ∈ files, pyEndsWith f (sfx ".mgz") = true →
        env.subjects_dir.isSome = true ∧ env.mriPresent = true ∧
        0 < env.mriData.nx ∧ 0 < env.mriData.ny ∧ 0 < env.mriData.nz) →
      bodyIds r.html = List.range' 1 r.initial_id →
      tocNumIds env r.fnames = r.initial_id →
      bodyIds (files.foldl (renderStep env int) r).html
          = List.range' 1 (files.foldl (renderStep env int) r).initial_id
        ∧ tocNumIds env (files.foldl (renderStep env int) r).fnames
          = (files.foldl (renderStep env int) r).initial_id := by
  intro files
  induction files with
  | nil =>
    intro r _ _ _ _ hB hT
    exact ⟨hB, hT⟩
  | cons f t ih =>
    intro r hs hr htr hb hB hT
    obtain ⟨k, hk1, hk2, hk3⟩ := renderStep_spec env int r f
      (hs f (List.mem_cons_self f t)) (hr f (List.mem_cons_self f t))
      (htr f (List.mem_cons_self f t)) (hb f (List.mem_cons_self f t))
    rw [List.foldl_cons]
    refine ih (renderStep env int r f)
      (fun g hg => hs g (List.mem_cons_of_mem f hg))
      (fun g hg => hr g (List.mem_cons_of_mem f hg))
      (fun g hg => htr g (List.mem_cons_of_mem f hg))
      (fun g hg => hb g (List.mem_cons_of_mem f hg)) ?_ ?_
    · rw [hk2, hB, hk1]
      have hap := List.range'_append 1 r.initial_id k 1
      rw [Nat.one_mul] at hap
      rw [Nat.add_comm 1 r.initial_id] at hap
      rw [hap, Nat.add_comm k r.initial_id]
    · rw [hk3, hT, hk1]

/-- Claim C1 (amended): when both passes visit the artifacts in the identical
backing-list order *and* every per-artifact render succeeds with every
coordinate-transform plot returning a 3-D scene (readers succeed; any `T1.mgz`
artifact has a configured subjects dir, an existing volume and positive
dimensions), the TOC anchor ids coincide, entry by entry in order, with the
fragment ids allocated during body rendering (one per condition for
averaged-response files).  Without the trans-scene condition the claim fails —
see the counterexample, where a trans artifact consumes a TOC anchor but no
body id. -/
theorem c1_amended (env : Env) (int : Bool)
    (hreader : ∀ f ∈ scanList env, env.readerOk f = true)
    (htrans : ∀ f ∈ scanList env, pyEndsWith f (sfx "-trans.fif") = true →
      env.transIsScene f = true)
    (hbem : ∀ f ∈ scanList env, pyEndsWith f (sfx ".mgz") = true →
      env.subjects_dir.isSome = true ∧ env.mriPresent = true ∧
      0 < env.mriData.nx ∧ 0 < env.mriData.ny ∧ 0 < env.mriData.nz) :
    anchorIds (tocEntriesAux env
        (Report.parse_folder env int (mkReport env)).fnames 1)
      = bodyIds (Report.parse_folder env int (mkReport env)).html := by
  obtain ⟨hB, hT⟩ := parse_invariant env int (scanList env) (mkReport env)
    (scanList_shape env) hreader htrans hbem rfl rfl
  unfold Report.parse_folder
  rw [anchorIds_tocEntries env _ 1, hT, hB]

/-- A healthy scan: one raw file, one two-condition averaged-response file,
one coordinate-transform file whose plot is a scene. -/
def envC1W : Env :=
  { scanFiles := [sfx "a_raw.fif", sfx "b-ave.fif", sfx "c-trans.fif"]
    subjects_dir := none
    subject := none
    title := sfx "t"
    readerOk := fun _ => true
    evokedComments := fun _ => [sfx "A", sfx "B"]
    transIsScene := fun _ => true
    isDir := fun _ => false
    mriPresent := false
    bemDirPresent := false
    surfPresent := fun _ => false
    mriData := trivArr }

/-- Claim C1 witness: the amended theorem applied to the healthy concrete
scan. -/
theorem c1_amended_witness :
    anchorIds (tocEntriesAux envC1W
        (Report.parse_folder envC1W true (mkReport envC1W)).fnames 1)
      = bodyIds (Report.parse_folder envC1W true (mkReport envC1W)).html :=
  c1_amended envC1W true (by decide) (by decide) (by decide)
